import Mathlib

set_option maxRecDepth 100000

/-!
# Verification of the AI-Web-Generator HTML placeholder / repair pipeline

This file shallowly embeds the core text-processing pipeline of `app.py`:

* `validate_and_repair_html` (app.py lines 773-826): markdown-fence stripping
  followed by six regex-based structural repairs;
* `fill_images` (app.py lines 828-988): the malformed-`<img>` normalizer,
  the placeholder substitution engine with its resolver `repl`, the final
  cleanup passes, and the last-resort aggressive placeholder pass;
* the image-generation fallback chain `generate_flux_image` →
  `generate_stable_diffusion_image` → `fetch_unsplash` → picsum
  (app.py lines 617-771).

Strings are modelled as `List Char`.  Each Python `re.sub` is embedded as a
left-to-right scan (`reSubGo`) with a hand-compiled matcher for its specific
pattern; the matchers reproduce the leftmost-match, greedy/lazy backtracking
semantics of the Python `re` module for their pattern (each matcher's doc
comment quotes the pattern and explains the compilation).  External network
calls are modelled by a `Net` parameter recording what every outbound call
would return; `None`/exception outcomes are explicit constructors.
Python's whitespace class `\s` / `str.strip` is modelled on its ASCII
fragment (the inputs of interest are ASCII HTML).
-/

/-- ASCII fragment of Python's whitespace (`\s`, `str.strip()` default):
space, tab, newline, carriage return, vertical tab, form feed. -/
def pyIsSpace (c : Char) : Bool :=
  c = ' ' || c = '\t' || c = '\n' || c = '\r' || c = '\x0b' || c = '\x0c'

/-- Python `str.strip()`: drop whitespace from both ends. -/
def pyStrip (s : List Char) : List Char :=
  ((s.dropWhile pyIsSpace).reverse.dropWhile pyIsSpace).reverse

/-- Python `str.lower()` (ASCII fragment). -/
def pyLower (s : List Char) : List Char :=
  s.map Char.toLower

/-- Python truthiness of strings: `a or b` returns `a` unless `a` is empty. -/
def pyOr (a b : List Char) : List Char :=
  if a = [] then b else a

/-- `containsSub pat s` decides whether `pat` occurs as a contiguous
substring of `s` (Python's `pat in s`). -/
def containsSub (pat : List Char) : List Char → Bool
  | [] => pat.isEmpty
  | c :: cs => pat.isPrefixOf (c :: cs) || containsSub pat cs

/-- Strip a literal prefix, returning the remainder on success. -/
def dropLit? : List Char → List Char → Option (List Char)
  | [], s => some s
  | _ :: _, [] => none
  | c :: p, d :: s => if c = d then dropLit? p s else none

/-- `\s+`: require at least one whitespace character, consume the maximal run. -/
def dropSpaces1? (s : List Char) : Option (List Char) :=
  match s with
  | [] => none
  | c :: cs => if pyIsSpace c then some (cs.dropWhile pyIsSpace) else none

/-- `[^c]*` followed by a literal `lit` whose FIRST character is `c` (and which
contains no further `c`): Python's greedy `[^c]*` necessarily stops at the
first `c`, where `lit` must match, so the idiom is deterministic.  Returns the
`[^c]*` text and the remainder after `lit`. -/
def scanStopLit (c : Char) (lit : List Char) (s : List Char) :
    Option (List Char × List Char) :=
  let pre := s.takeWhile (fun d => !(d = c))
  let rest := s.dropWhile (fun d => !(d = c))
  match dropLit? lit rest with
  | some after => some (pre, after)
  | none => none

/-- All decompositions `s = pre ++ lit ++ post` with every character of `pre`
satisfying `!stop`, in increasing order of `|pre|` (the order a LAZY `.*?` or
`[^c]*?` tries them; reverse for a greedy star).  Used to embed
backtracking of a star followed by a literal and a continuation. -/
def stopSplits (stop : Char → Bool) (lit : List Char) :
    List Char → List (List Char × List Char)
  | [] => if lit.isEmpty then [([], [])] else []
  | c :: cs =>
    (match dropLit? lit (c :: cs) with
     | some after => [([], after)]
     | none => []) ++
    (if stop c then []
     else (stopSplits stop lit cs).map (fun p => (c :: p.1, p.2)))

/-- Try a continuation on each candidate in order, returning the first success
(the backtracking search order of the Python `re` engine). -/
def firstSome {α β : Type} (f : α → Option β) : List α → Option β
  | [] => none
  | a :: as => match f a with
    | some b => some b
    | none => firstSome f as

/-- Candidates for a lazy `(.*?)` (no DOTALL: `.` excludes newline) followed
by literal `lit`, in lazy order. -/
def lazyDotSplits (lit : List Char) (s : List Char) :
    List (List Char × List Char) :=
  stopSplits (fun c => c = '\n') lit s

/-- Candidates for a lazy `(.*?)` under DOTALL followed by literal `lit`,
in lazy order. -/
def dotallSplits (lit : List Char) (s : List Char) :
    List (List Char × List Char) :=
  stopSplits (fun _ => false) lit s

/-- One pass of Python `re.sub`: scan left to right; at each position let the
matcher decide whether the pattern matches there (returning the replacement
text and the remainder after the match, which is at least one character
shorter); on a match, emit the replacement and resume after it, otherwise copy
one character.  `fuel` is consumed one unit per position; `reSub` supplies
`|s|` which suffices because every match is nonempty. -/
def reSubGo (try_ : List Char → Option (List Char × List Char)) :
    Nat → List Char → List Char
  | 0, s => s
  | _ + 1, [] => []
  | fuel + 1, c :: cs =>
    match try_ (c :: cs) with
    | some (r, rest) => r ++ reSubGo try_ fuel rest
    | none => c :: reSubGo try_ fuel cs

/-- Python `re.sub(pattern, repl, s)` for a pattern embedded as `try_`. -/
def reSub (try_ : List Char → Option (List Char × List Char))
    (s : List Char) : List Char :=
  reSubGo try_ s.length s

/-- Whether the pattern matches anywhere (Python `re.findall(...) != []`). -/
def hasMatch (try_ : List Char → Option (List Char × List Char)) :
    List Char → Bool
  | [] => (try_ []).isSome
  | c :: cs => (try_ (c :: cs)).isSome || hasMatch try_ cs

/-! ## `validate_and_repair_html` (app.py 773-826) -/

/-- Case-insensitive literal (pass `lit` in lowercase). -/
def dropLitCI? : List Char → List Char → Option (List Char)
  | [], s => some s
  | _ :: _, [] => none
  | c :: p, d :: s => if c = d.toLower then dropLitCI? p s else none

/-- `re.sub(r'^\s*` ``` `(?:html)?\s*', '', html, flags=re.IGNORECASE)`:
anchored at the start, so at most one match; `(?:html)?` and each `\s*` are
greedy and followed by tokens they cannot consume, hence deterministic. -/
def stripLeadFence (s : List Char) : List Char :=
  let u := s.dropWhile pyIsSpace
  match dropLit? ( "```".toList) u with
  | none => s
  | some v =>
    let w := match dropLitCI? ( "html".toList) v with
      | some w' => w'
      | none => v
    w.dropWhile pyIsSpace

/-- Whether `\s*` ``` `\s*$` matches starting exactly here (the remainder must
be whitespace, three backticks, then whitespace up to the end). -/
def fenceEndHere (t : List Char) : Bool :=
  let u := t.dropWhile pyIsSpace
  ( "```".toList).isPrefixOf u && ((u.drop 3).all pyIsSpace)

/-- `re.sub(r'\s*` ``` `\s*$', '', html)`: the match must reach the end of the
string, so the leftmost match delets a suffix; scan for the first position
where it starts. -/
def stripTrailFence : List Char → List Char
  | [] => []
  | c :: cs => if fenceEndHere (c :: cs) then [] else c :: stripTrailFence cs

def litGt : List Char := ">".toList
def litSection : List Char := "<section".toList
def litH2 : List Char := "<h2".toList
def litFeatured : List Char := "Featured Projects</h2>".toList
def litCardHover : List Char := "<div class=\"card-hover".toList
def litDivClose : List Char := "</div>".toList
def litSectionClose : List Char := "</section>".toList

/-- Matcher for repair pattern 1 (incomplete grid containers):
`(<section[^>]*>.*?<h2[^>]*>Featured Projects</h2>.*?)(<div class="card-hover[^>]*>.*?</div>)(.*?</section>)`
with DOTALL.  Each lazy `.*?` is compiled to an in-order candidate search
(`dotallSplits` + `firstSome`), nested so that earlier stars vary slowest,
which is exactly the `re` backtracking order. -/
def tryFix1 (s : List Char) : Option (List Char × List Char) :=
  match dropLit? litSection s with
  | none => none
  | some s1 =>
  match scanStopLit '>' litGt s1 with
  | none => none
  | some (a, s2) =>
  firstSome (fun p1 =>
    match scanStopLit '>' litGt p1.2 with
    | none => none
    | some (b, s4) =>
    match dropLit? litFeatured s4 with
    | none => none
    | some s5 =>
    firstSome (fun p2 =>
      match scanStopLit '>' litGt p2.2 with
      | none => none
      | some (c2, s7) =>
      firstSome (fun p3 =>
        firstSome (fun p4 =>
          let g1 := litSection ++ a ++ '>' :: p1.1 ++ litH2 ++ b ++ '>' ::
            (litFeatured ++ p2.1)
          let g2 := litCardHover ++ c2 ++ '>' :: (p3.1 ++ litDivClose)
          let g3 := p4.1 ++ litSectionClose
          some (g1 ++ ( "<div class='grid md:grid-cols-2 lg:grid-cols-3 gap-8'>".toList)
            ++ g2 ++ litDivClose ++ g3, p4.2))
          (dotallSplits litSectionClose p3.2))
        (dotallSplits litDivClose s7))
      (dotallSplits litCardHover s5))
    (dotallSplits litH2 s2)

/-- Matcher for repair pattern 2 (orphaned skill bars):
`(<section[^>]*>.*?<h2[^>]*>Skills[^<]*</h2>.*?)(<div class="space-y-4">\s*<div class="flex justify-between[^>]*>.*?</div>\s*<div class="bg-gray-200[^>]*>.*?</div>\s*</div>)(.*?</section>)`
with DOTALL.  Same compilation scheme as `tryFix1`; every `\s*` is greedy and
followed by `<`, hence deterministic. -/
def tryFix2 (s : List Char) : Option (List Char × List Char) :=
  match dropLit? litSection s with
  | none => none
  | some s1 =>
  match scanStopLit '>' litGt s1 with
  | none => none
  | some (a, s2) =>
  firstSome (fun p1 =>
    match scanStopLit '>' litGt p1.2 with
    | none => none
    | some (b, s4) =>
    match dropLit? ( "Skills".toList) s4 with
    | none => none
    | some s5 =>
    match scanStopLit '<' ( "</h2>".toList) s5 with
    | none => none
    | some (sk, s6) =>
    firstSome (fun p2 =>
      let w1 := p2.2.takeWhile pyIsSpace
      match dropLit? ( "<div class=\"flex justify-between".toList)
          (p2.2.dropWhile pyIsSpace) with
      | none => none
      | some s9 =>
      match scanStopLit '>' litGt s9 with
      | none => none
      | some (c1, s10) =>
      firstSome (fun p3 =>
        let w2 := p3.2.takeWhile pyIsSpace
        match dropLit? ( "<div class=\"bg-gray-200".toList)
            (p3.2.dropWhile pyIsSpace) with
        | none => none
        | some s13 =>
        match scanStopLit '>' litGt s13 with
        | none => none
        | some (c2, s14) =>
        firstSome (fun p4 =>
          let w3 := p4.2.takeWhile pyIsSpace
          match dropLit? litDivClose (p4.2.dropWhile pyIsSpace) with
          | none => none
          | some s17 =>
          firstSome (fun p5 =>
            let g1 := litSection ++ a ++ '>' :: p1.1 ++ litH2 ++ b ++ '>' ::
              (( "Skills".toList) ++ sk ++ ( "</h2>".toList) ++ p2.1)
            let g2 := ( "<div class=\"space-y-4\">".toList) ++ w1 ++
              ( "<div class=\"flex justify-between".toList) ++ c1 ++ '>' ::
              (p3.1 ++ litDivClose ++ w2 ++
               ( "<div class=\"bg-gray-200".toList) ++ c2 ++ '>' ::
               (p4.1 ++ litDivClose ++ w3 ++ litDivClose))
            let g3 := p5.1 ++ litSectionClose
            some (g1 ++ ( "<div class='max-w-4xl mx-auto space-y-8'>".toList)
              ++ g2 ++ litDivClose ++ g3, p5.2))
            (dotallSplits litSectionClose s17))
          (dotallSplits litDivClose s14))
        (dotallSplits litDivClose s10))
      (dotallSplits ( "<div class=\"space-y-4\">".toList) s6))
    (dotallSplits litH2 s2)

/-- One unit of repair pattern 3's repetition
`\s*<span class="px-4 py-2 bg-gray-100[^>]*>[^<]*</span>\s*`:
returns the remainder (each sub-token is deterministic). -/
def spanUnit? (s : List Char) : Option (List Char) :=
  match dropLit? ( "<span class=\"px-4 py-2 bg-gray-100".toList)
      (s.dropWhile pyIsSpace) with
  | none => none
  | some s2 =>
  match scanStopLit '>' litGt s2 with
  | none => none
  | some (_, s3) =>
  match scanStopLit '<' ( "</span>".toList) s3 with
  | none => none
  | some (_, s4) => some (s4.dropWhile pyIsSpace)

/-- Greedy iteration of `spanUnit?` (the `( ... )+` loop; nothing follows the
repetition in the pattern, so no backtracking into it is possible). -/
def spanUnits : Nat → List Char → List Char
  | 0, s => s
  | fuel + 1, s =>
    match spanUnit? s with
    | some rest => spanUnits fuel rest
    | none => s

/-- Matcher for repair pattern 3 (orphaned skill tags):
`(\s*<span class="px-4 py-2 bg-gray-100[^>]*>[^<]*</span>\s*)+`, replaced by
`<div class='flex flex-wrap gap-3 mt-8'>` + whole match + `</div>`. -/
def tryFix3 (s : List Char) : Option (List Char × List Char) :=
  match spanUnit? s with
  | none => none
  | some rest1 =>
    let rest := spanUnits rest1.length rest1
    let matched := s.take (s.length - rest.length)
    some (( "<div class='flex flex-wrap gap-3 mt-8'>".toList) ++ matched ++
      litDivClose, rest)

/-- Matcher for repair pattern 4 (incomplete project cards):
`(<div class="card-hover[^>]*>.*?</div>)(\s*<div class="flex space-x-4">.*?</div>\s*</div>\s*</div>)`
(no DOTALL: `.` excludes newlines).  The replacement `{g1}{g2}` reassembles
the full match, so the rewrite leaves matched text unchanged. -/
def tryFix4 (s : List Char) : Option (List Char × List Char) :=
  match dropLit? litCardHover s with
  | none => none
  | some s1 =>
  match scanStopLit '>' litGt s1 with
  | none => none
  | some (_, s2) =>
  match firstSome (fun p1 =>
      match dropLit? ( "<div class=\"flex space-x-4\">".toList)
          (p1.2.dropWhile pyIsSpace) with
      | none => none
      | some s5 =>
      firstSome (fun p2 =>
        match dropLit? litDivClose (p2.2.dropWhile pyIsSpace) with
        | none => none
        | some s8 => dropLit? litDivClose (s8.dropWhile pyIsSpace))
        (lazyDotSplits litDivClose s5))
      (lazyDotSplits litDivClose s2) with
  | none => none
  | some rest => some (s.take (s.length - rest.length), rest)

/-- `\s*` followed by the back-referenced opening tag (one unit of repair
pattern 5's `(\s*\1)+`). -/
def containerRep? (g1 : List Char) (s : List Char) : Option (List Char) :=
  dropLit? g1 (s.dropWhile pyIsSpace)

/-- Greedy iteration of `containerRep?`. -/
def containerReps (g1 : List Char) : Nat → List Char → List Char
  | 0, s => s
  | fuel + 1, s =>
    match containerRep? g1 s with
    | some rest => containerReps g1 fuel rest
    | none => s

/-- Matcher for repair pattern 5 (duplicate container wrappers):
`(<div class=['"]container[^>]*>)(\s*\1)+` replaced by `\1`.  The captured
opening tag `g1` is reassembled and matched literally for the repetition. -/
def tryFix5 (s : List Char) : Option (List Char × List Char) :=
  match dropLit? ( "<div class=".toList) s with
  | none => none
  | some s1 =>
  match (match s1 with
    | c :: cs => if c = '\'' || c = '"' then some (c, cs) else none
    | [] => none) with
  | none => none
  | some (q, s2) =>
  match dropLit? ( "container".toList) s2 with
  | none => none
  | some s3 =>
  match scanStopLit '>' litGt s3 with
  | none => none
  | some (attrs, s4) =>
  let g1 := ( "<div class=".toList) ++ q :: (( "container".toList) ++ attrs ++ [ '>' ])
  match containerRep? g1 s4 with
  | none => none
  | some rest1 => some (g1, containerReps g1 rest1.length rest1)

/-- Count leading repetitions of `lit`, returning the remainder. -/
def countReps (lit : List Char) : Nat → List Char → Nat × List Char
  | 0, s => (0, s)
  | fuel + 1, s =>
    match dropLit? lit s with
    | some rest =>
      let (k, r) := countReps lit fuel rest
      (k + 1, r)
    | none => (0, s)

/-- Matcher for repair pattern 6 (duplicate closing tags):
`(</div>){4,}` replaced by `'</div></div></div>'` — note the replacement in
app.py line 824 is three closing tags. -/
def tryFix6 (s : List Char) : Option (List Char × List Char) :=
  let (k, rest) := countReps litDivClose s.length s
  if 4 ≤ k then some (litDivClose ++ litDivClose ++ litDivClose, rest)
  else none

/-- The six repair substitutions of `validate_and_repair_html`, in order. -/
def repairFixes (s : List Char) : List Char :=
  reSub tryFix6 (reSub tryFix5 (reSub tryFix4 (reSub tryFix3
    (reSub tryFix2 (reSub tryFix1 s)))))

/-- `validate_and_repair_html` (app.py 773-826): early return on empty or
whitespace-only input; strip; strip markdown fences (re-stripping after the
trailing fence); the six repair substitutions; final strip. -/
def validate_and_repair_html (html : List Char) : List Char :=
  if html = [] || pyStrip html = [] then html
  else pyStrip (repairFixes (pyStrip (stripTrailFence (stripLeadFence (pyStrip html)))))

/-! ## External image backends (app.py 617-771)

Outbound calls are modelled by a `Net` record saying what each call would
return.  A binary image response is modelled by its base64 encoding (the code
only ever embeds `base64.b64encode(response)` into a data URL). -/

/-- Outcome of one Hugging Face inference call. -/
inductive ApiResult where
  | bytes (b64 : List Char)
  | other
  | failure
deriving DecidableEq

/-- The observable behaviour of the network and environment configuration. -/
structure Net where
  hfAvailable : Bool
  hfToken : Bool
  unsplashKey : Bool
  fluxApi : List Char → ApiResult
  sdApi : List Char → ApiResult
  unsplashApi : List Char → Option (List Char)

/-- The query-improvement heuristic of `fetch_unsplash` (app.py 626-638). -/
def improveUnsplashQuery (query : List Char) : List Char :=
  let ql := pyLower query
  if containsSub ( "biriyani".toList) ql || containsSub ( "biryani".toList) ql then
    "biryani rice dish indian food".toList
  else if containsSub ( "lamb".toList) ql &&
      (containsSub ( "rogan".toList) ql || containsSub ( "josh".toList) ql ||
       containsSub ( "food".toList) ql || containsSub ( "dish".toList) ql ||
       containsSub ( "curry".toList) ql) then
    "lamb rogan josh kashmiri curry indian food".toList
  else if containsSub ( "lamb".toList) ql && containsSub ( "food".toList) ql then
    "lamb meat dish food".toList
  else if containsSub ( "food".toList) ql || containsSub ( "dish".toList) ql then
    query ++ ( " food cuisine dish".toList)
  else if containsSub ( "cleaning".toList) ql then
    "professional cleaning service".toList
  else if containsSub ( "portfolio".toList) ql then
    "professional portfolio work".toList
  else query

/-- `fetch_unsplash` (app.py 617-656): without an access key, or on a failed
or errored request, returns the empty string. -/
def fetch_unsplash (net : Net) (query : List Char) : List Char :=
  if !net.unsplashKey then []
  else
    match net.unsplashApi (improveUnsplashQuery query) with
    | some url => url
    | none => []

/-- The prompt-improvement heuristic of `generate_stable_diffusion_image`
(app.py 729-742). -/
def improveSDPrompt (prompt : List Char) : List Char :=
  let pl := pyLower prompt
  if containsSub ( "biriyani".toList) pl || containsSub ( "biryani".toList) pl then
    "delicious biryani rice dish, indian cuisine, food photography, high quality, detailed".toList
  else if containsSub ( "lamb".toList) pl &&
      (containsSub ( "rogan".toList) pl || containsSub ( "josh".toList) pl ||
       containsSub ( "food".toList) pl || containsSub ( "dish".toList) pl ||
       containsSub ( "curry".toList) pl) then
    "lamb rogan josh, kashmiri curry, indian dish, food photography, delicious meal, high quality, detailed".toList
  else if containsSub ( "lamb".toList) pl && containsSub ( "food".toList) pl then
    "lamb meat dish, food photography, delicious meal, high quality, detailed".toList
  else if containsSub ( "food".toList) pl || containsSub ( "dish".toList) pl then
    prompt ++ ( ", food photography, delicious meal, high quality, professional, detailed".toList)
  else if containsSub ( "cleaning".toList) pl then
    "professional cleaning service, clean, modern, high quality, detailed".toList
  else if containsSub ( "portfolio".toList) pl then
    "professional portfolio work, modern design, high quality, detailed".toList
  else prompt

/-- `generate_stable_diffusion_image` (app.py 716-771): unavailable Hugging
Face hub, a non-bytes response, or an exception all fall back to
`fetch_unsplash` with the ORIGINAL prompt. -/
def generate_stable_diffusion_image (net : Net) (prompt : List Char) : List Char :=
  if !net.hfAvailable then fetch_unsplash net prompt
  else
    match net.sdApi (improveSDPrompt prompt) with
    | ApiResult.bytes b => ( "data:image/png;base64,".toList) ++ b
    | ApiResult.other => fetch_unsplash net prompt
    | ApiResult.failure => fetch_unsplash net prompt

/-- The prompt-improvement heuristic of `generate_flux_image`
(app.py 675-687). -/
def improveFluxPrompt (prompt : List Char) : List Char :=
  let pl := pyLower prompt
  if containsSub ( "biriyani".toList) pl || containsSub ( "biryani".toList) pl then
    "delicious biryani rice dish, indian cuisine, food photography, high quality".toList
  else if containsSub ( "lamb".toList) pl &&
      (containsSub ( "rogan".toList) pl || containsSub ( "josh".toList) pl ||
       containsSub ( "food".toList) pl || containsSub ( "dish".toList) pl ||
       containsSub ( "curry".toList) pl) then
    "lamb rogan josh, kashmiri curry, indian dish, food photography, delicious meal, high quality".toList
  else if containsSub ( "lamb".toList) pl && containsSub ( "food".toList) pl then
    "lamb meat dish, food photography, delicious meal, high quality".toList
  else if containsSub ( "food".toList) pl || containsSub ( "dish".toList) pl then
    prompt ++ ( ", food photography, delicious meal, high quality, professional".toList)
  else if containsSub ( "cleaning".toList) pl then
    "professional cleaning service, clean, modern, high quality".toList
  else if containsSub ( "portfolio".toList) pl then
    "professional portfolio work, modern design, high quality".toList
  else prompt

/-- `generate_flux_image` (app.py 658-714): missing hub or token, a non-bytes
response, or an exception all fall back to `generate_stable_diffusion_image`
with the ORIGINAL prompt. -/
def generate_flux_image (net : Net) (prompt : List Char) : List Char :=
  if !(net.hfAvailable && net.hfToken) then generate_stable_diffusion_image net prompt
  else
    match net.fluxApi (improveFluxPrompt prompt) with
    | ApiResult.bytes b => ( "data:image/png;base64,".toList) ++ b
    | ApiResult.other => generate_stable_diffusion_image net prompt
    | ApiResult.failure => generate_stable_diffusion_image net prompt

/-! ## `fill_images` (app.py 828-988) -/

/-- The uploaded-image map (`uploaded_images` dict): label → source. -/
def UploadedImages : Type := List (List Char × List Char)

/-- Python `label in uploaded_images` / `uploaded_images[label]`. -/
def lookupImg : UploadedImages → List Char → Option (List Char)
  | [], _ => none
  | (k, v) :: t, l => if k = l then some v else lookupImg t l

/-- The canonical placeholder `\x7b\x7bimage: LABEL\x7d\x7d` the normalizer
rewrites malformed tags to (the f-string `'\x7b\x7b\x7b\x7bimage: ...'`). -/
def phOf (label : List Char) : List Char :=
  '{' :: '{' :: (( "image: ".toList) ++ label ++ [ '}', '}' ])

def litQuote : List Char := "\"".toList
def litAmpLt : List Char := "&lt;".toList
def litAmpGt : List Char := "&gt;".toList
def litAmpQuot : List Char := "&quot;".toList
def litAmpAmp : List Char := "&amp;".toList

/-- Optional single character (`s?` in `https?`): greedy, and deterministic
because the following token cannot start with `c`. -/
def optChar (c : Char) (s : List Char) : List Char :=
  match s with
  | d :: t => if d = c then t else s
  | [] => s

/-- `<img\s+` followed by a literal: the shared opening of several patterns. -/
def imgOpen? (lit : List Char) (s : List Char) : Option (List Char) :=
  match dropLit? ( "<img".toList) s with
  | none => none
  | some s1 =>
  match dropSpaces1? s1 with
  | none => none
  | some s2 => dropLit? lit s2

/-- The prefix `<img\s+src="&lt;img\s+src="` shared by normalizers 5 and
7-11. -/
def nestedImgOpen? (s : List Char) : Option (List Char) :=
  match imgOpen? ( "src=\"&lt;img".toList) s with
  | none => none
  | some s3 =>
  match dropSpaces1? s3 with
  | none => none
  | some s4 => dropLit? ( "src=\"".toList) s4

/-- Normalizer 1 (app.py 845):
`<img\s+src="<img\s+src="[^"]*"\s+alt="([^"]*)"[^>]*>"[^>]*>` →
`\x7b\x7bimage: G1\x7d\x7d`.  Every `[^c]*` here is followed by a literal
starting with `c`, so the whole pattern is deterministic. -/
def tryN1 (s : List Char) : Option (List Char × List Char) :=
  match imgOpen? ( "src=\"<img".toList) s with
  | none => none
  | some s3 =>
  match dropSpaces1? s3 with
  | none => none
  | some s4 =>
  match dropLit? ( "src=\"".toList) s4 with
  | none => none
  | some s5 =>
  match scanStopLit '"' litQuote s5 with
  | none => none
  | some (_, s6) =>
  match dropSpaces1? s6 with
  | none => none
  | some s7 =>
  match dropLit? ( "alt=\"".toList) s7 with
  | none => none
  | some s8 =>
  match scanStopLit '"' litQuote s8 with
  | none => none
  | some (label, s9) =>
  match scanStopLit '>' litGt s9 with
  | none => none
  | some (_, s10) =>
  match dropLit? litQuote s10 with
  | none => none
  | some s11 =>
  match scanStopLit '>' litGt s11 with
  | none => none
  | some (_, s12) => some (phOf label, s12)

/-- Normalizer 2 (app.py 848):
`<img\s+src="https?://[^"]*"\s+alt="([^"]*)">` → `\x7b\x7bimage: G1\x7d\x7d`. -/
def tryN2 (s : List Char) : Option (List Char × List Char) :=
  match imgOpen? ( "src=\"http".toList) s with
  | none => none
  | some s3 =>
  match dropLit? ( "://".toList) (optChar 's' s3) with
  | none => none
  | some s4 =>
  match scanStopLit '"' litQuote s4 with
  | none => none
  | some (_, s5) =>
  match dropSpaces1? s5 with
  | none => none
  | some s6 =>
  match dropLit? ( "alt=\"".toList) s6 with
  | none => none
  | some s7 =>
  match scanStopLit '"' litQuote s7 with
  | none => none
  | some (label, s8) =>
  match dropLit? litGt s8 with
  | none => none
  | some s9 => some (phOf label, s9)

/-- Normalizer 3 (app.py 851):
`<img\s+src="&lt;img\s+src=&quot;([^&]*)&quot;[^&]*&amp;[^&]*&quot;[^>]*>"[^>]*>`
→ `\x7b\x7bimage: G1\x7d\x7d` (deterministic: each `[^&]*`/`[^>]*` is
followed by a literal starting with the excluded character). -/
def tryN3 (s : List Char) : Option (List Char × List Char) :=
  match imgOpen? ( "src=\"&lt;img".toList) s with
  | none => none
  | some s3 =>
  match dropSpaces1? s3 with
  | none => none
  | some s4 =>
  match dropLit? ( "src=&quot;".toList) s4 with
  | none => none
  | some s5 =>
  match scanStopLit '&' litAmpQuot s5 with
  | none => none
  | some (url, s6) =>
  match scanStopLit '&' litAmpAmp s6 with
  | none => none
  | some (_, s7) =>
  match scanStopLit '&' litAmpQuot s7 with
  | none => none
  | some (_, s8) =>
  match scanStopLit '>' litGt s8 with
  | none => none
  | some (_, s9) =>
  match dropLit? litQuote s9 with
  | none => none
  | some s10 =>
  match scanStopLit '>' litGt s10 with
  | none => none
  | some (_, s11) => some (phOf url, s11)

/-- Normalizer 4 (app.py 852):
`&lt;img\s+src=&quot;https?://[^&]*&quot;[^>]*&gt;` →
`\x7b\x7bimage: restaurant-interior\x7d\x7d`.  `[^>]*` followed by `&gt;`
(which contains no `>`) backtracks from the longest `[^>]*`; candidates are
tried in greedy order (reversed `stopSplits`). -/
def tryN4 (s : List Char) : Option (List Char × List Char) :=
  match dropLit? ( "&lt;img".toList) s with
  | none => none
  | some s2 =>
  match dropSpaces1? s2 with
  | none => none
  | some s3 =>
  match dropLit? ( "src=&quot;http".toList) s3 with
  | none => none
  | some s4 =>
  match dropLit? ( "://".toList) (optChar 's' s4) with
  | none => none
  | some s5 =>
  match scanStopLit '&' litAmpQuot s5 with
  | none => none
  | some (_, s6) =>
  match firstSome (fun p => some p.2)
      ((stopSplits (fun c => c = '>') litAmpGt s6).reverse) with
  | none => none
  | some rest => some (phOf ( "restaurant-interior".toList), rest)

/-- Normalizer 5 (app.py 855):
`<img\s+src="&lt;img\s+src="([^"]+)"\s+alt="([^"]+)"&gt;"\s+alt="([^"]+)">`
→ `\x7b\x7bimage: G2\x7d\x7d`. -/
def tryN5 (s : List Char) : Option (List Char × List Char) :=
  match nestedImgOpen? s with
  | none => none
  | some s5 =>
  match scanStopLit '"' litQuote s5 with
  | none => none
  | some (g1, s6) =>
  if g1 = [] then none else
  match dropSpaces1? s6 with
  | none => none
  | some s7 =>
  match dropLit? ( "alt=\"".toList) s7 with
  | none => none
  | some s8 =>
  match scanStopLit '"' litQuote s8 with
  | none => none
  | some (g2, s9) =>
  if g2 = [] then none else
  match dropLit? ( "&gt;\"".toList) s9 with
  | none => none
  | some s10 =>
  match dropSpaces1? s10 with
  | none => none
  | some s11 =>
  match dropLit? ( "alt=\"".toList) s11 with
  | none => none
  | some s12 =>
  match scanStopLit '"' litQuote s12 with
  | none => none
  | some (g3, s13) =>
  if g3 = [] then none else
  match dropLit? litGt s13 with
  | none => none
  | some s14 => some (phOf g2, s14)

/-- Normalizer 6 (app.py 858):
`&lt;img\s+src="([^"]+)"\s+alt="([^"]+)"&gt;` → `\x7b\x7bimage: G2\x7d\x7d`. -/
def tryN6 (s : List Char) : Option (List Char × List Char) :=
  match dropLit? ( "&lt;img".toList) s with
  | none => none
  | some s2 =>
  match dropSpaces1? s2 with
  | none => none
  | some s3 =>
  match dropLit? ( "src=\"".toList) s3 with
  | none => none
  | some s4 =>
  match scanStopLit '"' litQuote s4 with
  | none => none
  | some (g1, s5) =>
  if g1 = [] then none else
  match dropSpaces1? s5 with
  | none => none
  | some s6 =>
  match dropLit? ( "alt=\"".toList) s6 with
  | none => none
  | some s7 =>
  match scanStopLit '"' litQuote s7 with
  | none => none
  | some (g2, s8) =>
  if g2 = [] then none else
  match dropLit? litAmpGt s8 with
  | none => none
  | some s9 => some (phOf g2, s9)

/-- The `(?:&amp;[^&]*)*&quot;` machinery of normalizer 7: at a loop boundary
either `&quot;` ends the star, or `&amp;` starts one more iteration whose
`[^&]*` runs to the next `&`; any other text fails (the two entity literals
are mutually exclusive prefixes, so the greedy star is deterministic). -/
def ampLoop : Nat → List Char → Option (List Char)
  | 0, _ => none
  | fuel + 1, s =>
    match dropLit? litAmpQuot s with
    | some rest => some rest
    | none =>
      match dropLit? litAmpAmp s with
      | some s2 => ampLoop fuel (s2.dropWhile (fun c => !(c = '&')))
      | none => none

/-- Candidates for normalizer 7's lazy `([^"]*?)` followed by
`(?:&amp;[^&]*)*&quot;`: group extents in increasing (lazy) order, each paired
with the remainder after the closing `&quot;`; the continuation after the
group is deterministic per extent (see `ampLoop`). -/
def ampCands : Nat → List Char → List Char → List (List Char × List Char)
  | 0, _, _ => []
  | fuel + 1, acc, s =>
    (match ampLoop s.length s with
     | some rest => [(acc.reverse, rest)]
     | none => []) ++
    (match s with
     | c :: cs => if c = '"' then [] else ampCands fuel (c :: acc) cs
     | [] => [])

/-- Shared suffix of normalizers 7-11:
`[^>]*&gt;"\s+alt="([^"]+)">` — `[^>]*` followed by `&gt;` (no `>` inside)
backtracks greedily, with the rest of the pattern as continuation.  Returns
the `alt` group and the remainder. -/
def altSuffix (s : List Char) : Option (List Char × List Char) :=
  firstSome (fun p =>
    match dropLit? litQuote p.2 with
    | none => none
    | some s1 =>
    match dropSpaces1? s1 with
    | none => none
    | some s2 =>
    match dropLit? ( "alt=\"".toList) s2 with
    | none => none
    | some s3 =>
    match scanStopLit '"' litQuote s3 with
    | none => none
    | some (g, s4) =>
    if g = [] then none else
    match dropLit? litGt s4 with
    | none => none
    | some s5 => some (g, s5))
    ((stopSplits (fun c => c = '>') litAmpGt s).reverse)

/-- Normalizer 7 (app.py 866):
`<img\s+src="&lt;img\s+src="([^"]*?)(?:&amp;[^&]*)*&quot;[^>]*&gt;"\s+alt="([^"]+)">`
→ `\x7b\x7bimage: G2\x7d\x7d`. -/
def tryN7 (s : List Char) : Option (List Char × List Char) :=
  match nestedImgOpen? s with
  | none => none
  | some s5 =>
  firstSome (fun p =>
    match altSuffix p.2 with
    | none => none
    | some (g2, rest) => some (phOf g2, rest))
    (ampCands s5.length [] s5)

/-- Normalizer 8 (app.py 874):
`<img\s+src="&lt;img\s+src="([^"]*)&quot;[^>]*&gt;"\s+alt="([^"]+)">`
→ `\x7b\x7bimage: G2\x7d\x7d` (`([^"]*)` then `&quot;`, which contains no
quote: greedy backtracking over `&quot;` occurrences). -/
def tryN8 (s : List Char) : Option (List Char × List Char) :=
  match nestedImgOpen? s with
  | none => none
  | some s5 =>
  firstSome (fun p =>
    match altSuffix p.2 with
    | none => none
    | some (g2, rest) => some (phOf g2, rest))
    ((stopSplits (fun c => c = '"') litAmpQuot s5).reverse)

/-- Normalizer 9 (app.py 878):
`<img\s+src="&lt;img\s+src="([^"]*https://media\.licdn\.com[^"]*)\&quot;[^>]*&gt;"\s+alt="([^"]+)">`
→ `\x7b\x7bimage: G2\x7d\x7d` (two greedy `[^"]*` runs around the literal
CDN host, then `&quot;`; nested greedy backtracking). -/
def tryN9 (s : List Char) : Option (List Char × List Char) :=
  match nestedImgOpen? s with
  | none => none
  | some s5 =>
  firstSome (fun p1 =>
    firstSome (fun p2 =>
      match altSuffix p2.2 with
      | none => none
      | some (g2, rest) => some (phOf g2, rest))
      ((stopSplits (fun c => c = '"') litAmpQuot p1.2).reverse))
    ((stopSplits (fun c => c = '"') ( "https://media.licdn.com".toList) s5).reverse)

/-- Normalizer 10 (app.py 881):
`<img\s+src="&lt;img\s+src="[^"]*&quot;[^>]*&gt;"\s+alt="([^"]+)">`
→ `\x7b\x7bimage: G1\x7d\x7d` (the only group is the `alt`). -/
def tryN10 (s : List Char) : Option (List Char × List Char) :=
  match nestedImgOpen? s with
  | none => none
  | some s5 =>
  firstSome (fun p =>
    match altSuffix p.2 with
    | none => none
    | some (g, rest) => some (phOf g, rest))
    ((stopSplits (fun c => c = '"') litAmpQuot s5).reverse)

/-- Normalizer 11 (app.py 884):
`<img\s+src="&lt;img\s+src="[^"]*"[^>]*&gt;"\s+alt="([^"]+)">`
→ `\x7b\x7bimage: G1\x7d\x7d` (`[^"]*` then a plain quote: deterministic). -/
def tryN11 (s : List Char) : Option (List Char × List Char) :=
  match nestedImgOpen? s with
  | none => none
  | some s5 =>
  match scanStopLit '"' litQuote s5 with
  | none => none
  | some (_, s6) =>
  match altSuffix s6 with
  | none => none
  | some (g, rest) => some (phOf g, rest)

/-- The eleven normalizer substitutions, in source order (app.py 845-884). -/
def normalizeImgTags (s : List Char) : List Char :=
  reSub tryN11 (reSub tryN10 (reSub tryN9 (reSub tryN8 (reSub tryN7
    (reSub tryN6 (reSub tryN5 (reSub tryN4 (reSub tryN3
      (reSub tryN2 (reSub tryN1 s))))))))))

/-! ### The placeholder substitution engine (app.py 912-965) -/

/-- Lazy group `(.*?)` followed by `\s*` and the literal `closeLit`
(the `\s*(.*?)\s*CLOSE` idiom of the placeholder patterns, after the leading
`\s*` has been consumed greedily): the shortest newline-free extent whose
remainder, after whitespace, starts with `closeLit`.  Returns the group and
the remainder after `closeLit`. -/
def lazyWsClose (closeLit : List Char) : Nat → List Char → List Char →
    Option (List Char × List Char)
  | 0, _, _ => none
  | fuel + 1, acc, s =>
    match dropLit? closeLit (s.dropWhile pyIsSpace) with
    | some rest => some (acc.reverse, rest)
    | none =>
      match s with
      | c :: cs => if c = '\n' then none else lazyWsClose closeLit fuel (c :: acc) cs
      | [] => none

/-- Lazy group `(.*?)` directly followed by the literal `closeLit`
(pattern 4's `(.*?)"`). -/
def lazyClose (closeLit : List Char) : Nat → List Char → List Char →
    Option (List Char × List Char)
  | 0, _, _ => none
  | fuel + 1, acc, s =>
    match dropLit? closeLit s with
    | some rest => some (acc.reverse, rest)
    | none =>
      match s with
      | c :: cs => if c = '\n' then none else lazyClose closeLit fuel (c :: acc) cs
      | [] => none

/-- `src="` followed by the double-brace placeholder opening. -/
def litSrcPh2 : List Char := ( "src=\"".toList) ++ '{' :: '{' :: ( "image:".toList)

/-- `src="` followed by the single-brace placeholder opening. -/
def litSrcPh1 : List Char := ( "src=\"".toList) ++ '{' :: ( "image:".toList)

/-- Double-brace placeholder opening `\x7b\x7bimage:`. -/
def litPh2 : List Char := '{' :: '{' :: ( "image:".toList)

/-- Single-brace placeholder opening `\x7bimage:`. -/
def litPh1 : List Char := '{' :: ( "image:".toList)

/-- Replacement pattern `src="\{\{image:\s*(.*?)\s*\}\}"` (and its spelled
variant `src="\x7b\x7bimage:\s*(.*?)\s*\x7d\x7d"`, which denotes the same
regular expression).  Returns the captured label and the remainder. -/
def tryPat1 (s : List Char) : Option (List Char × List Char) :=
  match dropLit? litSrcPh2 s with
  | none => none
  | some s1 => lazyWsClose ( [ '}', '}', '"' ]) s1.length [] (s1.dropWhile pyIsSpace)

/-- Replacement pattern `src="\{image:\s*(.*?)\s*\}"`. -/
def tryPat3 (s : List Char) : Option (List Char × List Char) :=
  match dropLit? litSrcPh1 s with
  | none => none
  | some s1 => lazyWsClose ( [ '}', '"' ]) s1.length [] (s1.dropWhile pyIsSpace)

/-- Replacement pattern `src="image:\s*(.*?)"`. -/
def tryPat4 (s : List Char) : Option (List Char × List Char) :=
  match dropLit? ( "src=\"image:".toList) s with
  | none => none
  | some s1 => lazyClose litQuote s1.length [] (s1.dropWhile pyIsSpace)

/-- Replacement pattern `\{\{image:\s*(.*?)\s*\}\}` (and its spelled variant,
the same regular expression). -/
def tryPat5 (s : List Char) : Option (List Char × List Char) :=
  match dropLit? litPh2 s with
  | none => none
  | some s1 => lazyWsClose ( [ '}', '}' ]) s1.length [] (s1.dropWhile pyIsSpace)

/-- Replacement pattern `\{image:\s*(.*?)\s*\}`. -/
def tryPat7 (s : List Char) : Option (List Char × List Char) :=
  match dropLit? litPh1 s with
  | none => none
  | some s1 => lazyWsClose ( [ '}' ]) s1.length [] (s1.dropWhile pyIsSpace)

/-- Replacement pattern `image:\s*(.*?)\s*`: after the greedy `\s*`, the lazy
group's continuation `\s*` matches immediately, so the group is always empty
and the match consumes `image:` plus the whitespace run. -/
def tryPat8 (s : List Char) : Option (List Char × List Char) :=
  match dropLit? ( "image:".toList) s with
  | none => none
  | some s1 => some ([], s1.dropWhile pyIsSpace)

/-- The eight replacement patterns of the substitution engine in their fixed
source order (app.py 945-954).  Entries 2 and 6 are the single-spelling
variants, which denote the same regular expressions as entries 1 and 5. -/
def replacementPatterns : List (List Char → Option (List Char × List Char)) :=
  [tryPat1, tryPat1, tryPat3, tryPat4, tryPat5, tryPat5, tryPat7, tryPat8]

/-- `repl` (app.py 912-943), the image resolver: strip the captured label;
an uploaded image wins outright; profile-like labels go through the headshot
generation chain with a `/400/400` picsum fallback; all others through the
FLUX chain with an `/800/500` picsum fallback.  The returned map is the
uploaded-image dict after the call (the body only reads it). -/
def repl (net : Net) (style_image_hint : List Char) (m : UploadedImages)
    (group1 : List Char) : List Char × UploadedImages :=
  let label := pyStrip group1
  match lookupImg m label with
  | some v => (( "src=\"".toList) ++ v ++ litQuote, m)
  | none =>
    if containsSub ( "profile".toList) (pyLower label) ||
       containsSub ( "avatar".toList) (pyLower label) ||
       containsSub ( "photo".toList) (pyLower label) then
      let profile_prompt := ( "professional headshot portrait, ".toList) ++ label ++
        ( ", high quality, business professional".toList) ++
        (if style_image_hint = [] then []
         else ( ", in the style of ".toList) ++ style_image_hint)
      let photo := pyOr (generate_flux_image net profile_prompt)
        (pyOr (generate_stable_diffusion_image net profile_prompt)
          (( "https://picsum.photos/seed/".toList) ++ label ++ ( "/400/400".toList)))
      (( "src=\"".toList) ++ photo ++ litQuote, m)
    else
      let image_prompt := label ++
        (if style_image_hint = [] then []
         else ( ", ".toList) ++ style_image_hint)
      let photo := pyOr (generate_flux_image net image_prompt)
        (( "https://picsum.photos/seed/".toList) ++ label ++ ( "/800/500".toList))
      (( "src=\"".toList) ++ photo ++ litQuote, m)

/-- `re.sub(pattern, repl, html)` for a placeholder pattern: like `reSubGo`
but each match's captured label is resolved through `repl`, threading the
uploaded-image map through the calls in match order. -/
def reSubRGo (net : Net) (hint : List Char)
    (try_ : List Char → Option (List Char × List Char)) :
    Nat → List Char → UploadedImages → List Char × UploadedImages
  | 0, s, m => (s, m)
  | _ + 1, [], m => ([], m)
  | fuel + 1, c :: cs, m =>
    match try_ (c :: cs) with
    | some (lab, rest) =>
      let rm := repl net hint m lab
      let tm := reSubRGo net hint try_ fuel rest rm.2
      (rm.1 ++ tm.1, tm.2)
    | none =>
      let tm := reSubRGo net hint try_ fuel cs m
      (c :: tm.1, tm.2)

/-- The replacement loop (app.py 956-965): try the patterns in order and
apply `re.sub` for the FIRST one that matches anywhere, then stop; if none
matches, leave the text unchanged. -/
def mainPassGo (net : Net) (hint : List Char) :
    List (List Char → Option (List Char × List Char)) →
    List Char → UploadedImages → List Char × UploadedImages
  | [], s, m => (s, m)
  | p :: ps, s, m =>
    if hasMatch p s then reSubRGo net hint p s.length s m
    else mainPassGo net hint ps s m

/-! ### Final cleanup, the remaining-placeholder check, and the aggressive
pass (app.py 967-986) -/

/-- Final cleanup 1 (app.py 969): `<img\s+src="&lt;img[^>]*>"[^>]*>` → ``. -/
def tryClean1 (s : List Char) : Option (List Char × List Char) :=
  match imgOpen? ( "src=\"&lt;img".toList) s with
  | none => none
  | some s3 =>
  match scanStopLit '>' litGt s3 with
  | none => none
  | some (_, s4) =>
  match dropLit? litQuote s4 with
  | none => none
  | some s5 =>
  match scanStopLit '>' litGt s5 with
  | none => none
  | some (_, s6) => some ([], s6)

/-- Final cleanup 2 (app.py 970): `&lt;img[^>]*&gt;` → `` (greedy `[^>]*`
followed by the `&gt;` entity, no continuation: the last entity occurrence
before the first `>` wins). -/
def tryClean2 (s : List Char) : Option (List Char × List Char) :=
  match dropLit? ( "&lt;img".toList) s with
  | none => none
  | some s2 =>
  match firstSome (fun p => some p.2)
      ((stopSplits (fun c => c = '>') litAmpGt s2).reverse) with
  | none => none
  | some rest => some ([], rest)

/-- Remaining-placeholder pattern `\{\{image:.*?\}\}` (and its spelled
variant, the same regular expression): used only for existence. -/
def tryRem2 (s : List Char) : Option (List Char × List Char) :=
  match dropLit? litPh2 s with
  | none => none
  | some s1 => firstSome (fun p => some (p.1, p.2)) (lazyDotSplits ( [ '}', '}' ]) s1)

/-- Remaining-placeholder pattern `\{image:.*?\}`. -/
def tryRem1 (s : List Char) : Option (List Char × List Char) :=
  match dropLit? litPh1 s with
  | none => none
  | some s1 => firstSome (fun p => some (p.1, p.2)) (lazyDotSplits ( [ '}' ]) s1)

/-- The remaining-placeholder check (app.py 973-977): any of the three
patterns (the first two are the same regular expression) still matches. -/
def remainingPlaceholders (s : List Char) : Bool :=
  hasMatch tryRem2 s || hasMatch tryRem2 s || hasMatch tryRem1 s

/-- The literal `<img>` tag inserted by the aggressive pass: since the
pattern's lazy group is followed by `\s*\}?`, which matches anywhere, the
captured label is always empty, giving a fixed seed-less picsum tag. -/
def aggReplacement : List Char :=
  "<img src=\"https://picsum.photos/seed//800/500\" alt=\"\">".toList

/-- The tail of an aggressive match after the placeholder opening: the greedy
`\s*` run, the empty lazy group, the second (empty) `\s*`, and the optional
closing brace. -/
def aggTrim (r1 : List Char) : List Char :=
  match r1.dropWhile pyIsSpace with
  | c :: cs => if c = '}' then cs else c :: cs
  | [] => []

/-- The aggressive last-resort pattern (app.py 983):
`\{?\x7bimage:\s*(.*?)\s*\}?` — an optional brace (greedy, so `\x7b\x7bimage:`
is consumed whole when present), the literal `\x7bimage:`, the greedy
whitespace run, the always-empty lazy group, and an optional closing brace. -/
def tryAgg (s : List Char) : Option (List Char × List Char) :=
  match (match dropLit? litPh2 s with
         | some r => some r
         | none => dropLit? litPh1 s) with
  | none => none
  | some r1 => some (aggReplacement, aggTrim r1)

/-- The last stage of `fill_images` (app.py 973-986): if any placeholder
variant remains, apply the aggressive catch-all substitution. -/
def finalPlaceholderPass (s : List Char) : List Char :=
  if remainingPlaceholders s then reSub tryAgg s else s

/-- The `uploaded_images=None` default of `fill_images`: a missing map is an
empty dict. -/
def getUploaded : Option UploadedImages → UploadedImages
  | none => []
  | some d => d

/-- The html produced by the body of `fill_images` (app.py 828-988): the
eleven-pattern normalizer, then the first-matching replacement pattern with
`repl`, then the two final cleanup substitutions, then the aggressive pass
guarded by the remaining-placeholder check. -/
def fill_imagesHtml (net : Net) (html : List Char) (hint : List Char)
    (m : UploadedImages) : List Char :=
  finalPlaceholderPass (reSub tryClean2 (reSub tryClean1
    (mainPassGo net hint replacementPatterns (normalizeImgTags html) m).1))

/-- The uploaded-image map after the body of `fill_images` has run (only the
replacement loop touches it, through `repl`). -/
def fill_imagesMap (net : Net) (html : List Char) (hint : List Char)
    (m : UploadedImages) : UploadedImages :=
  (mainPassGo net hint replacementPatterns (normalizeImgTags html) m).2

/-- `fill_images` (app.py 828-988) with the uploaded-image map threaded
through explicitly: resolves the `uploaded_images=None` default and returns
the html together with the map after the call.  The `prompt` argument is only
used for debug logging in the source. -/
def fill_imagesM (net : Net) (html prompt : List Char)
    (uploaded_images : Option UploadedImages) (style_image_hint : List Char) :
    List Char × UploadedImages :=
  (fill_imagesHtml net html style_image_hint (getUploaded uploaded_images),
   fill_imagesMap net html style_image_hint (getUploaded uploaded_images))

/-- The html result of `fill_images` (the first component of
`fill_imagesM`). -/
def fill_images (net : Net) (html prompt : List Char)
    (uploaded_images : Option UploadedImages) (style_image_hint : List Char) :
    List Char :=
  fill_imagesHtml net html style_image_hint (getUploaded uploaded_images)

/-- A network state on which every outbound call fails: the hub import and
tokens are absent, and every API call raises / returns nothing. -/
def deadNet : Net where
  hfAvailable := false
  hfToken := false
  unsplashKey := false
  fluxApi := fun _ => ApiResult.failure
  sdApi := fun _ => ApiResult.failure
  unsplashApi := fun _ => none

/-- All outbound calls fail or are unavailable: every generation call raises
and the stock-photo call yields nothing. -/
def allCallsFail (net : Net) : Prop :=
  (∀ p, net.fluxApi p = ApiResult.failure) ∧
  (∀ p, net.sdApi p = ApiResult.failure) ∧
  (∀ q, net.unsplashApi q = none)

/-! ## Basic lemmas about the string utilities -/

theorem dropWhile_self_idem (p : Char → Bool) (l : List Char) :
    (l.dropWhile p).dropWhile p = l.dropWhile p := by
  induction l with
  | nil => rfl
  | cons c t ih =>
    by_cases h : p c = true
    · simp [List.dropWhile, h, ih]
    · simp only [Bool.not_eq_true] at h
      simp [List.dropWhile, h]

theorem dropWhile_head_false (p : Char → Bool) (l : List Char) (c : Char)
    (t : List Char) (h : l.dropWhile p = c :: t) : p c = false := by
  induction l with
  | nil => simp [List.dropWhile] at h
  | cons d u ih =>
    by_cases hd : p d = true
    · exact ih (by simpa [List.dropWhile, hd] using h)
    · simp only [Bool.not_eq_true] at hd
      simp only [List.dropWhile, hd] at h
      cases h
      exact hd

theorem dropWhile_suffix_ex (p : Char → Bool) (l : List Char) :
    ∃ w, w ++ l.dropWhile p = l := by
  induction l with
  | nil => exact ⟨[], rfl⟩
  | cons d u ih =>
    by_cases hd : p d = true
    · obtain ⟨w, hw⟩ := ih
      exact ⟨d :: w, by simp [List.dropWhile, hd, hw]⟩
    · simp only [Bool.not_eq_true] at hd
      exact ⟨[], by simp [List.dropWhile, hd]⟩

theorem pyStrip_all_space (s : List Char) (h : s.all pyIsSpace = true) :
    pyStrip s = [] := by
  have hd : s.dropWhile pyIsSpace = [] := by
    rw [List.dropWhile_eq_nil_iff]
    intro x hx
    exact List.all_eq_true.mp h x hx
  simp [pyStrip, hd]

/-- The first character of `pyStrip s` is not whitespace, stated via
`dropWhile`. -/
theorem dropWhile_pyStrip (s : List Char) :
    (pyStrip s).dropWhile pyIsSpace = pyStrip s := by
  unfold pyStrip
  set t := s.dropWhile pyIsSpace with ht
  set u := t.reverse.dropWhile pyIsSpace with hu
  rcases hrev : u.reverse with _ | ⟨c, v⟩
  · simp [hrev]
  · have hu_ne : u ≠ [] := by
      intro h0
      rw [h0] at hrev
      simp at hrev
    obtain ⟨w, hw⟩ := dropWhile_suffix_ex pyIsSpace t.reverse
    rw [← hu] at hw
    rcases hht : t with _ | ⟨d, t'⟩
    · rw [hht] at hw
      simp at hw
      rw [hw.2] at hrev
      simp at hrev
    · have hd : pyIsSpace d = false := dropWhile_head_false pyIsSpace s d t' hht
      have : u.reverse ++ w.reverse = d :: t' := by
        have := congrArg List.reverse hw
        simpa [hht] using this
      rw [hrev] at this
      have hc : c = d := by
        have := congrArg (fun l => l.headI) this
        simpa using this
      rw [hc]
      simp [List.dropWhile, hd]

theorem pyStrip_idem (s : List Char) : pyStrip (pyStrip s) = pyStrip s := by
  conv_lhs => rw [pyStrip, dropWhile_pyStrip]
  unfold pyStrip
  rw [List.reverse_reverse, dropWhile_self_idem]

/-! ## C7: empty / whitespace-only input short-circuits the repair pass -/

/-- C7: for every input that is empty or consists only of whitespace,
`validate_and_repair_html` returns its input unchanged, character for
character, and raises no error. -/
theorem C7_repair_identity_on_whitespace (s : List Char)
    (h : s.all pyIsSpace = true) : validate_and_repair_html s = s := by
  unfold validate_and_repair_html
  rw [pyStrip_all_space s h]
  simp

/-- Witness for C7 at the concrete whitespace input `" \n "`. -/
theorem C7_repair_identity_on_whitespace_witness :
    (( " \n ".toList).all pyIsSpace = true) ∧
      validate_and_repair_html ( " \n ".toList) = ( " \n ".toList) :=
  ⟨by decide, C7_repair_identity_on_whitespace ( " \n ".toList) (by decide)⟩

/-! ## C2: idempotence of the repair pass -/

/-- C2 counterexample: on a single orphaned skill-tag span, a second
application of `validate_and_repair_html` wraps the already-wrapped span in a
second `flex flex-wrap` container, so `repair (repair html) ≠ repair html`. -/
theorem C2_repair_not_idempotent_cex :
    validate_and_repair_html (validate_and_repair_html
      ( "<span class=\"px-4 py-2 bg-gray-100\">A</span>".toList)) ≠
    validate_and_repair_html
      ( "<span class=\"px-4 py-2 bg-gray-100\">A</span>".toList) := by
  decide

/-- C2 amended: the structural repair pass is idempotent on every input whose
repaired output is a fixed point of the rewrite steps (fence stripping and
the six fix substitutions); it is not idempotent in general, because the
wrap-inserting steps match their own output again (see the counterexample). -/
theorem C2_repair_idempotent_on_fixpoints (s : List Char)
    (h1 : stripLeadFence (validate_and_repair_html s) = validate_and_repair_html s)
    (h2 : stripTrailFence (validate_and_repair_html s) = validate_and_repair_html s)
    (h3 : repairFixes (validate_and_repair_html s) = validate_and_repair_html s) :
    validate_and_repair_html (validate_and_repair_html s) =
      validate_and_repair_html s := by
  set r := validate_and_repair_html s with hr
  by_cases hg : (r = [] || pyStrip r = []) = true
  · rw [validate_and_repair_html, if_pos hg]
  · have hsr : pyStrip r = r := by
      by_cases hgs : (s = [] || pyStrip s = []) = true
      · exfalso
        apply hg
        have hrs : r = s := by rw [hr, validate_and_repair_html, if_pos hgs]
        rw [hrs]
        exact hgs
      · have hform : r = pyStrip (repairFixes (pyStrip (stripTrailFence
            (stripLeadFence (pyStrip s))))) := by
          rw [hr, validate_and_repair_html, if_neg hgs]
        rw [hform, pyStrip_idem]
    rw [validate_and_repair_html, if_neg hg, hsr, h1, h2, hsr, h3, hsr]

/-- Witness for C2's amended theorem at the concrete input `"<p>hi</p>"`
(whose repaired output is a fixed point of all rewrite steps). -/
theorem C2_repair_idempotent_on_fixpoints_witness :
    (stripLeadFence (validate_and_repair_html ( "<p>hi</p>".toList)) =
      validate_and_repair_html ( "<p>hi</p>".toList)) ∧
    validate_and_repair_html (validate_and_repair_html ( "<p>hi</p>".toList)) =
      validate_and_repair_html ( "<p>hi</p>".toList) :=
  ⟨by decide, C2_repair_idempotent_on_fixpoints ( "<p>hi</p>".toList)
    (by decide) (by decide) (by decide)⟩

/-! ## C4: collapsing runs of consecutive closing `div` tags -/

theorem dropLit?_append (p r : List Char) : dropLit? p (p ++ r) = some r := by
  induction p with
  | nil => rfl
  | cons c t ih => simp [dropLit?, ih]

/-- A run of `n` consecutive `</div>` tags. -/
def divRun (n : Nat) : List Char :=
  List.flatten (List.replicate n litDivClose)

theorem divRun_succ (n : Nat) : divRun (n + 1) = litDivClose ++ divRun n := by
  simp [divRun, List.replicate_succ]

theorem le_divRun_length (n : Nat) : n ≤ (divRun n).length := by
  induction n with
  | zero => simp [divRun]
  | succ m ih =>
    rw [divRun_succ]
    simp only [List.length_append]
    have : (6 : Nat) + m ≤ litDivClose.length + (divRun m).length := by
      have h6 : litDivClose.length = 6 := by decide
      omega
    omega

theorem countReps_divRun (n : Nat) : ∀ fuel, n ≤ fuel →
    countReps litDivClose fuel (divRun n) = (n, []) := by
  induction n with
  | zero =>
    intro fuel _
    cases fuel with
    | zero => rfl
    | succ f => simp [countReps, divRun, dropLit?]
  | succ m ih =>
    intro fuel hf
    cases fuel with
    | zero => omega
    | succ f =>
      rw [divRun_succ]
      simp only [countReps, dropLit?_append]
      rw [ih f (by omega)]

theorem reSubGo_nil (try_ : List Char → Option (List Char × List Char))
    (fuel : Nat) : reSubGo try_ fuel [] = [] := by
  cases fuel with
  | zero => rfl
  | succ f => rfl

/-- C4 counterexample: on an input ending in five consecutive `</div>`, the
repair pass produces THREE closing tags, not the two the claim states. -/
theorem C4_collapse_divs_cex :
    validate_and_repair_html
        ( "<p>x</p></div></div></div></div></div>".toList) ≠
      ( "<p>x</p></div></div>".toList) ∧
    validate_and_repair_html
        ( "<p>x</p></div></div></div></div></div>".toList) =
      ( "<p>x</p></div></div></div>".toList) :=
  ⟨by decide, by decide⟩

/-- C4 amended: step 6 of the repair pass collapses every run of four or more
consecutive `</div>` to exactly THREE `</div>` (the replacement at app.py
line 824 is `'</div></div></div>'`); in particular an input ending in five
consecutive `</div>` keeps three of them. -/
theorem C4_collapse_divs_to_three :
    (∀ n, 4 ≤ n → reSub tryFix6 (divRun n) =
      litDivClose ++ litDivClose ++ litDivClose) ∧
    validate_and_repair_html
        ( "<p>x</p></div></div></div></div></div>".toList) =
      ( "<p>x</p></div></div></div>".toList) := by
  constructor
  · intro n hn
    obtain ⟨m, rfl⟩ : ∃ m, n = m + 4 := ⟨n - 4, by omega⟩
    have hform : divRun (m + 4) = '<' :: ('/' :: ('d' :: ('i' :: ('v' ::
        ('>' :: divRun (m + 3)))))) := by
      rw [divRun_succ]
      rfl
    rw [reSub, hform]
    have hcount := countReps_divRun (m + 4)
      ((divRun (m + 3)).length + 6) (by
        have := le_divRun_length (m + 3)
        omega)
    rw [hform] at hcount
    simp only [List.length_cons]
    rw [reSubGo]
    have htry : tryFix6 ('<' :: ('/' :: ('d' :: ('i' :: ('v' ::
        ('>' :: divRun (m + 3))))))) =
        some (litDivClose ++ litDivClose ++ litDivClose, []) := by
      rw [tryFix6]
      simp only [List.length_cons]
      have : (divRun (m + 3)).length + 1 + 1 + 1 + 1 + 1 + 1 =
          (divRun (m + 3)).length + 6 := by omega
      rw [this, hcount]
      simp
    rw [htry]
    simp [reSubGo_nil]
  · decide

/-- Witness for C4's amended theorem at the concrete run length 5. -/
theorem C4_collapse_divs_to_three_witness :
    reSub tryFix6 (divRun 5) = litDivClose ++ litDivClose ++ litDivClose :=
  C4_collapse_divs_to_three.1 5 (by decide)

/-! ## C1: placeholder elimination -/

theorem dropLit?_eq (p : List Char) : ∀ s r, dropLit? p s = some r → s = p ++ r := by
  induction p with
  | nil =>
    intro s r h
    simp [dropLit?] at h
    rw [h]
    rfl
  | cons c t ih =>
    intro s r h
    cases s with
    | nil => simp [dropLit?] at h
    | cons d s' =>
      by_cases hcd : c = d
      · simp only [dropLit?, if_pos hcd] at h
        rw [← hcd, ih s' r h]
        rfl
      · simp [dropLit?, hcd] at h

theorem isPrefixOf_append (p r : List Char) : p.isPrefixOf (p ++ r) = true := by
  induction p with
  | nil => simp [List.isPrefixOf]
  | cons c t ih => simpa [List.isPrefixOf] using ih

theorem dropWhile_length_le (p : Char → Bool) (l : List Char) :
    (l.dropWhile p).length ≤ l.length := by
  induction l with
  | nil => simp
  | cons c t ih =>
    by_cases h : p c = true
    · simp only [List.dropWhile, h]
      simp only [List.length_cons]
      omega
    · simp only [Bool.not_eq_true] at h
      simp [List.dropWhile, h]

theorem aggTrim_length_le (r1 : List Char) : (aggTrim r1).length ≤ r1.length := by
  have hd := dropWhile_length_le pyIsSpace r1
  unfold aggTrim
  rcases hm : r1.dropWhile pyIsSpace with _ | ⟨c, cs⟩
  · simp
  · rw [hm] at hd
    simp only [List.length_cons] at hd
    show (if c = '}' then cs else c :: cs).length ≤ r1.length
    by_cases hc : c = '}'
    · rw [if_pos hc]
      omega
    · rw [if_neg hc]
      simp only [List.length_cons]
      omega

theorem dropLit?_of_isPrefixOf (p s : List Char) (h : p.isPrefixOf s = true) :
    ∃ r, dropLit? p s = some r := by
  induction p generalizing s with
  | nil => exact ⟨s, rfl⟩
  | cons c t ih =>
    cases s with
    | nil => simp [List.isPrefixOf] at h
    | cons d s' =>
      simp only [List.isPrefixOf, Bool.and_eq_true, beq_iff_eq] at h
      obtain ⟨r, hr⟩ := ih s' h.2
      exact ⟨r, by simp [dropLit?, h.1, hr]⟩

/-- Inversion for `tryAgg`: the replacement is always the fixed seed-less
`<img>` tag, and the remainder is strictly shorter (at least the seven
characters `\x7bimage:` are consumed). -/
theorem tryAgg_inv (s r rest : List Char) (h : tryAgg s = some (r, rest)) :
    r = aggReplacement ∧ rest.length < s.length := by
  unfold tryAgg at h
  rcases h2 : dropLit? litPh2 s with _ | r1 <;> rw [h2] at h
  · rcases h1 : dropLit? litPh1 s with _ | r1 <;> rw [h1] at h
    · simp at h
    · simp only [Option.some.injEq, Prod.mk.injEq] at h
      have hs := dropLit?_eq litPh1 s r1 h1
      have hlen : r1.length + 7 = s.length := by
        rw [hs]
        simp [litPh1]
      have htrim := aggTrim_length_le r1
      exact ⟨h.1.symm, by rw [← h.2]; omega⟩
  · simp only [Option.some.injEq, Prod.mk.injEq] at h
    have hs := dropLit?_eq litPh2 s r1 h2
    have hlen : r1.length + 8 = s.length := by
      rw [hs]
      simp [litPh2]
    have htrim := aggTrim_length_le r1
    exact ⟨h.1.symm, by rw [← h.2]; omega⟩

/-- `tryAgg` matches wherever either placeholder opening is a prefix. -/
theorem tryAgg_isSome_of_ph1 (s : List Char) (h : litPh1.isPrefixOf s = true) :
    (tryAgg s).isSome := by
  unfold tryAgg
  rcases h2 : dropLit? litPh2 s with _ | r1
  · obtain ⟨r, hr⟩ := dropLit?_of_isPrefixOf litPh1 s h
    rw [hr]
    simp
  · simp

theorem tryAgg_isSome_of_ph2 (s : List Char) (h : litPh2.isPrefixOf s = true) :
    (tryAgg s).isSome := by
  unfold tryAgg
  obtain ⟨r, hr⟩ := dropLit?_of_isPrefixOf litPh2 s h
  rw [hr]
  simp

theorem isPrefixOf_cons_false (c0 d : Char) (t s : List Char) (hd : d ≠ c0) :
    (c0 :: t).isPrefixOf (d :: s) = false := by
  simp only [List.isPrefixOf, Bool.and_eq_false_iff]
  left
  simp only [beq_eq_false_iff_ne, ne_eq]
  exact fun hdc => hd hdc.symm

theorem isPrefixOf_cons_iff (c0 d : Char) (t s : List Char) :
    (c0 :: t).isPrefixOf (d :: s) = (decide (c0 = d) && t.isPrefixOf s) := by
  by_cases h : c0 = d
  · simp [List.isPrefixOf, h]
  · simp [List.isPrefixOf, h]

/-- Scanning over text without `\x7b` cannot create a `\x7bimage:`
occurrence. -/
theorem containsSub_append_of_no_head (pat l x : List Char) (c0 : Char)
    (hpat : pat = c0 :: pat.tail) (hl : ∀ c ∈ l, c ≠ c0) :
    containsSub pat (l ++ x) = containsSub pat x := by
  induction l with
  | nil => rfl
  | cons d l' ih =>
    have hd : d ≠ c0 := hl d (by simp)
    have hpre : pat.isPrefixOf (d :: (l' ++ x)) = false := by
      rw [hpat]
      exact isPrefixOf_cons_false c0 d _ _ hd
    show (pat.isPrefixOf (d :: (l' ++ x)) || containsSub pat (l' ++ x)) =
      containsSub pat x
    rw [hpre, Bool.false_or]
    exact ih (fun c hc => hl c (by simp [hc]))

/-- A prefix of the output of the aggressive scan that contains neither `\x7b`
nor `<` was already a prefix of the input. -/
theorem reSubGo_agg_isPrefixOf : ∀ (fuel : Nat) (s q : List Char),
    (∀ c ∈ q, c ≠ '{' ∧ c ≠ '<') →
    q.isPrefixOf (reSubGo tryAgg fuel s) = true → q.isPrefixOf s = true := by
  intro fuel
  induction fuel with
  | zero => intro s q _ h; exact h
  | succ f ih =>
    intro s q hq h
    cases s with
    | nil => simpa [reSubGo] using h
    | cons c cs =>
      rcases ht : tryAgg (c :: cs) with _ | ⟨r, rest⟩
      · simp only [reSubGo, ht] at h
        cases q with
        | nil => simp [List.isPrefixOf]
        | cons d q' =>
          rw [isPrefixOf_cons_iff] at h ⊢
          simp only [Bool.and_eq_true, decide_eq_true_eq] at h ⊢
          exact ⟨h.1, ih cs q' (fun e he => hq e (by simp [he])) h.2⟩
      · simp only [reSubGo, ht] at h
        obtain ⟨hr, _⟩ := tryAgg_inv (c :: cs) r rest ht
        cases q with
        | nil => simp [List.isPrefixOf]
        | cons d q' =>
          exfalso
          rw [hr] at h
          have hform : (aggReplacement ++ reSubGo tryAgg f rest) =
              '<' :: (( "img src=\"https://picsum.photos/seed//800/500\" alt=\"\">".toList)
                ++ reSubGo tryAgg f rest) := rfl
          rw [hform, isPrefixOf_cons_iff] at h
          simp only [Bool.and_eq_true, decide_eq_true_eq] at h
          exact (hq d (by simp)).2 h.1

/-- After the aggressive pass, no `\x7bimage:` occurrence remains. -/
theorem agg_no_ph1 : ∀ (fuel : Nat) (s : List Char), s.length ≤ fuel →
    containsSub litPh1 (reSubGo tryAgg fuel s) = false := by
  intro fuel
  induction fuel with
  | zero =>
    intro s hs
    have : s = [] := List.length_eq_zero.mp (Nat.le_zero.mp hs)
    subst this
    decide
  | succ f ih =>
    intro s hs
    cases s with
    | nil =>
      rw [reSubGo_nil]
      decide
    | cons c cs =>
      rcases ht : tryAgg (c :: cs) with _ | ⟨r, rest⟩
      · simp only [reSubGo, ht]
        have htail : containsSub litPh1 (reSubGo tryAgg f cs) = false :=
          ih cs (by simp only [List.length_cons] at hs; omega)
        simp only [containsSub, htail, Bool.or_false]
        have h7 : litPh1 = '{' :: ( "image:".toList) := by decide
        by_cases hc : c = '{'
        · subst hc
          rw [Bool.eq_false_iff]
          intro hpre
          have hpre2 : litPh1.isPrefixOf ('{' :: cs) = true := by
            rw [h7] at hpre ⊢
            rw [isPrefixOf_cons_iff] at hpre ⊢
            simp only [Bool.and_eq_true, decide_eq_true_eq] at hpre ⊢
            exact ⟨trivial, reSubGo_agg_isPrefixOf f cs ( "image:".toList)
              (by decide) hpre.2⟩
          have hsome := tryAgg_isSome_of_ph1 ('{' :: cs) hpre2
          rw [ht] at hsome
          simp at hsome
        · rw [h7]
          exact isPrefixOf_cons_false '{' c _ _ hc
      · simp only [reSubGo, ht]
        obtain ⟨hr, hlen⟩ := tryAgg_inv (c :: cs) r rest ht
        rw [hr]
        rw [containsSub_append_of_no_head litPh1 aggReplacement _ '{'
          (by decide) (by decide)]
        have : rest.length ≤ f := by
          simp only [List.length_cons] at hlen hs
          omega
        exact ih rest this

theorem containsSub_of_isPrefixOf (pat x : List Char)
    (hpat : pat ≠ []) (hx : pat.isPrefixOf x = true) :
    containsSub pat x = true := by
  cases x with
  | nil =>
    cases pat with
    | nil => exact absurd rfl hpat
    | cons c t => simp [List.isPrefixOf] at hx
  | cons c cs =>
    simp only [containsSub, hx, Bool.true_or]

theorem hasMatch_mono (f g : List Char → Option (List Char × List Char))
    (hfg : ∀ t, (f t).isSome → (g t).isSome) :
    ∀ s, hasMatch f s = true → hasMatch g s = true := by
  intro s
  induction s with
  | nil =>
    intro h
    simpa [hasMatch] using hfg [] (by simpa [hasMatch] using h)
  | cons c cs ih =>
    intro h
    simp only [hasMatch, Bool.or_eq_true] at h ⊢
    rcases h with h | h
    · exact Or.inl (hfg (c :: cs) h)
    · exact Or.inr (ih h)

theorem dropLit?_isPrefixOf (p s r : List Char) (h : dropLit? p s = some r) :
    p.isPrefixOf s = true := by
  rw [dropLit?_eq p s r h]
  exact isPrefixOf_append p r

theorem tryRem1_isSome_starts (t : List Char) (h : (tryRem1 t).isSome) :
    litPh1.isPrefixOf t = true := by
  unfold tryRem1 at h
  rcases hd : dropLit? litPh1 t with _ | s1
  · rw [hd] at h
    simp at h
  · exact dropLit?_isPrefixOf litPh1 t s1 hd

theorem tryRem2_isSome_starts (t : List Char) (h : (tryRem2 t).isSome) :
    litPh2.isPrefixOf t = true := by
  unfold tryRem2 at h
  rcases hd : dropLit? litPh2 t with _ | s1
  · rw [hd] at h
    simp at h
  · exact dropLit?_isPrefixOf litPh2 t s1 hd

theorem hasMatch_rem1_containsSub (s : List Char)
    (h : hasMatch tryRem1 s = true) : containsSub litPh1 s = true := by
  induction s with
  | nil =>
    exfalso
    simp only [hasMatch] at h
    have : tryRem1 [] = none := by decide
    rw [this] at h
    simp at h
  | cons c cs ih =>
    simp only [hasMatch, Bool.or_eq_true] at h
    rcases h with h | h
    · exact containsSub_of_isPrefixOf litPh1 (c :: cs) (by decide)
        (tryRem1_isSome_starts (c :: cs) h)
    · simp only [containsSub, ih h, Bool.or_true]

/-- A double-brace occurrence contains a single-brace occurrence one position
to the right. -/
theorem hasMatch_rem2_containsSub (s : List Char)
    (h : hasMatch tryRem2 s = true) : containsSub litPh1 s = true := by
  induction s with
  | nil =>
    exfalso
    simp only [hasMatch] at h
    have : tryRem2 [] = none := by decide
    rw [this] at h
    simp at h
  | cons c cs ih =>
    simp only [hasMatch, Bool.or_eq_true] at h
    rcases h with h | h
    · have hp2 : litPh2.isPrefixOf (c :: cs) = true :=
        tryRem2_isSome_starts (c :: cs) h
      have h8 : litPh2 = '{' :: litPh1 := by decide
      rw [h8, isPrefixOf_cons_iff] at hp2
      simp only [Bool.and_eq_true, decide_eq_true_eq] at hp2
      have : containsSub litPh1 cs = true :=
        containsSub_of_isPrefixOf litPh1 cs (by decide) hp2.2
      simp only [containsSub, this, Bool.or_true]
    · simp only [containsSub, ih h, Bool.or_true]

theorem scan_inserts_agg : ∀ (fuel : Nat) (s : List Char), s.length ≤ fuel →
    hasMatch tryAgg s = true →
    containsSub aggReplacement (reSubGo tryAgg fuel s) = true := by
  intro fuel
  induction fuel with
  | zero =>
    intro s hs h
    exfalso
    have : s = [] := List.length_eq_zero.mp (Nat.le_zero.mp hs)
    subst this
    simp only [hasMatch] at h
    have : tryAgg [] = none := by decide
    rw [this] at h
    simp at h
  | succ f ih =>
    intro s hs h
    cases s with
    | nil =>
      exfalso
      simp only [hasMatch] at h
      have : tryAgg [] = none := by decide
      rw [this] at h
      simp at h
    | cons c cs =>
      rcases ht : tryAgg (c :: cs) with _ | ⟨r, rest⟩
      · simp only [reSubGo, ht]
        simp only [hasMatch, ht, Option.isSome_none, Bool.false_or] at h
        have htail := ih cs (by simp only [List.length_cons] at hs; omega) h
        simp only [containsSub, htail, Bool.or_true]
      · simp only [reSubGo, ht]
        obtain ⟨hr, _⟩ := tryAgg_inv (c :: cs) r rest ht
        rw [hr]
        exact containsSub_of_isPrefixOf aggReplacement _ (by decide)
          (isPrefixOf_append aggReplacement _)

/-- No recognized placeholder variant survives the final stage. -/
theorem finalPlaceholderPass_no_variant (t : List Char) :
    remainingPlaceholders (finalPlaceholderPass t) = false := by
  unfold finalPlaceholderPass
  by_cases hrem : remainingPlaceholders t = true
  · rw [if_pos hrem]
    have hnoph : containsSub litPh1 (reSub tryAgg t) = false := by
      unfold reSub
      exact agg_no_ph1 t.length t (Nat.le_refl _)
    unfold remainingPlaceholders
    have h1 : hasMatch tryRem1 (reSub tryAgg t) = false := by
      rw [Bool.eq_false_iff]
      intro hm
      rw [hasMatch_rem1_containsSub _ hm] at hnoph
      simp at hnoph
    have h2 : hasMatch tryRem2 (reSub tryAgg t) = false := by
      rw [Bool.eq_false_iff]
      intro hm
      rw [hasMatch_rem2_containsSub _ hm] at hnoph
      simp at hnoph
    rw [h1, h2]
    rfl
  · rw [if_neg hrem]
    exact Bool.not_eq_true _ |>.mp hrem

theorem fill_imagesM_eq (net : Net) (html prompt : List Char)
    (up : Option UploadedImages) (hint : List Char) :
    fill_imagesM net html prompt up hint =
      (fill_imagesHtml net html hint (getUploaded up),
       fill_imagesMap net html hint (getUploaded up)) := rfl

/-- The html component of `fill_images` is the final-check stage applied to
the cleaned-up main-pass output. -/
theorem fill_images_as_final (net : Net) (html prompt : List Char)
    (up : Option UploadedImages) (hint : List Char) :
    fill_images net html prompt up hint =
      fill_imagesHtml net html hint (getUploaded up) := rfl

/-- C1: after `fill_images` runs, the output contains no remaining
placeholder syntax of any recognized variant (the three remaining-check
patterns of app.py 973-975, which cover the double- and single-brace
spellings); and whenever a placeholder survives to the final check, the
aggressive pass inserts the literal `<img>` tag with the deterministic
seed-less picsum fallback source. -/
theorem C1_placeholder_elimination :
    (∀ (net : Net) (html prompt : List Char) (up : Option UploadedImages)
        (hint : List Char),
      remainingPlaceholders (fill_images net html prompt up hint) = false) ∧
    (∀ s : List Char, remainingPlaceholders s = true →
      containsSub aggReplacement (finalPlaceholderPass s) = true) := by
  constructor
  · intro net html prompt up hint
    rw [fill_images_as_final]
    unfold fill_imagesHtml
    exact finalPlaceholderPass_no_variant (reSub tryClean2 (reSub tryClean1
      (mainPassGo net hint replacementPatterns (normalizeImgTags html)
        (getUploaded up)).1))
  · intro s hrem
    unfold finalPlaceholderPass
    rw [if_pos hrem]
    have hagg : hasMatch tryAgg s = true := by
      unfold remainingPlaceholders at hrem
      simp only [Bool.or_eq_true] at hrem
      rcases hrem with (h | h) | h
      · exact hasMatch_mono tryRem2 tryAgg
          (fun t ht => tryAgg_isSome_of_ph2 t (tryRem2_isSome_starts t ht)) s h
      · exact hasMatch_mono tryRem2 tryAgg
          (fun t ht => tryAgg_isSome_of_ph2 t (tryRem2_isSome_starts t ht)) s h
      · exact hasMatch_mono tryRem1 tryAgg
          (fun t ht => tryAgg_isSome_of_ph1 t (tryRem1_isSome_starts t ht)) s h
    unfold reSub
    exact scan_inserts_agg s.length s (Nat.le_refl _) hagg

/-- Witness for C1 at the concrete leftover placeholder `"\x7bimage: x\x7d"`. -/
theorem C1_placeholder_elimination_witness :
    remainingPlaceholders ( "\x7bimage: x\x7d".toList) = true ∧
    containsSub aggReplacement
      (finalPlaceholderPass ( "\x7bimage: x\x7d".toList)) = true :=
  ⟨by decide, C1_placeholder_elimination.2 ( "\x7bimage: x\x7d".toList) (by decide)⟩

/-! ## C6: only the first matching replacement pattern is applied -/

theorem mainPassGo_find? (net : Net) (hint : List Char) :
    ∀ (ps : List (List Char → Option (List Char × List Char)))
      (s : List Char) (m : UploadedImages),
    mainPassGo net hint ps s m =
      match ps.find? (fun p => hasMatch p s) with
      | some p => reSubRGo net hint p s.length s m
      | none => (s, m) := by
  intro ps
  induction ps with
  | nil => intro s m; rfl
  | cons p ps ih =>
    intro s m
    by_cases h : hasMatch p s = true
    · simp only [mainPassGo, h, if_true, List.find?, Bool.true_eq]
    · rw [Bool.not_eq_true] at h
      simp only [mainPassGo, h, Bool.false_eq_true, if_false, List.find?]
      exact ih s m

/-- C6: the substitution engine holds exactly eight pattern variants, and the
replacement loop applies `re.sub` with the FIRST variant (in the fixed list
order) that matches anywhere in the document, to the whole document; every
later variant is skipped, and when no variant matches the html is returned
unchanged (with the map untouched). -/
theorem C6_first_matching_pattern_only :
    replacementPatterns.length = 8 ∧
    ∀ (net : Net) (hint : List Char) (s : List Char) (m : UploadedImages),
      mainPassGo net hint replacementPatterns s m =
        match replacementPatterns.find? (fun p => hasMatch p s) with
        | some p => reSubRGo net hint p s.length s m
        | none => (s, m) :=
  ⟨rfl, fun net hint s m => mainPassGo_find? net hint replacementPatterns s m⟩

/-! ## C9: the uploaded-image map is never mutated -/

theorem repl_map_eq (net : Net) (hint : List Char) (m : UploadedImages)
    (group1 : List Char) : (repl net hint m group1).2 = m := by
  simp only [repl]
  cases hl : lookupImg m (pyStrip group1) with
  | some v => rfl
  | none =>
    cases hp : (containsSub ( "profile".toList) (pyLower (pyStrip group1)) ||
        containsSub ( "avatar".toList) (pyLower (pyStrip group1)) ||
        containsSub ( "photo".toList) (pyLower (pyStrip group1))) <;> simp

theorem reSubRGo_map_eq (net : Net) (hint : List Char)
    (try_ : List Char → Option (List Char × List Char)) :
    ∀ (fuel : Nat) (s : List Char) (m : UploadedImages),
    (reSubRGo net hint try_ fuel s m).2 = m := by
  intro fuel
  induction fuel with
  | zero => intro s m; rfl
  | succ f ih =>
    intro s m
    cases s with
    | nil => rfl
    | cons c cs =>
      rcases ht : try_ (c :: cs) with _ | ⟨lab, rest⟩
      · simp only [reSubRGo, ht]
        exact ih cs m
      · simp only [reSubRGo, ht]
        rw [ih rest (repl net hint m lab).2, repl_map_eq]

theorem mainPassGo_map_eq (net : Net) (hint : List Char) :
    ∀ (ps : List (List Char → Option (List Char × List Char)))
      (s : List Char) (m : UploadedImages),
    (mainPassGo net hint ps s m).2 = m := by
  intro ps
  induction ps with
  | nil => intro s m; rfl
  | cons p ps ih =>
    intro s m
    by_cases h : hasMatch p s = true
    · simp only [mainPassGo, h, if_true]
      exact reSubRGo_map_eq net hint p s.length s m
    · rw [Bool.not_eq_true] at h
      simp only [mainPassGo, h, Bool.false_eq_true, if_false]
      exact ih s m

/-- C9: the core pipeline never mutates the uploaded-image map — for every
input, prompt, style hint and map `m`, the map component returned by
`fill_images`'s body equals `m` (every dict operation performed by the body
is a read). -/
theorem C9_uploaded_map_not_mutated (net : Net) (html prompt : List Char)
    (m : UploadedImages) (hint : List Char) :
    fill_imagesM net html prompt (some m) hint =
      (fill_images net html prompt (some m) hint, m) := by
  have hm2 : fill_imagesMap net html hint (getUploaded (some m)) = m := by
    unfold fill_imagesMap
    exact mainPassGo_map_eq net hint replacementPatterns (normalizeImgTags html)
      (getUploaded (some m))
  calc fill_imagesM net html prompt (some m) hint
      = (fill_imagesHtml net html hint (getUploaded (some m)),
         fill_imagesMap net html hint (getUploaded (some m))) :=
        fill_imagesM_eq net html prompt (some m) hint
    _ = (fill_images net html prompt (some m) hint, m) := by
        rw [hm2, ← fill_images_as_final net html prompt (some m) hint]

/-! ## Single-placeholder documents: shared machinery for C3 and C10 -/

theorem dropLit?_isSome_mem (p t : List Char) (ch : Char) (hch : ch ∈ p)
    (h : (dropLit? p t).isSome) : ch ∈ t := by
  rcases hd : dropLit? p t with _ | r
  · rw [hd] at h
    simp at h
  · rw [dropLit?_eq p t r hd]
    exact List.mem_append.mpr (Or.inl hch)

theorem imgOpen?_mem (lit t : List Char) (h : (imgOpen? lit t).isSome) :
    '<' ∈ t := by
  unfold imgOpen? at h
  rcases hd : dropLit? ( "<img".toList) t with _ | s1
  · rw [hd] at h
    simp at h
  · exact dropLit?_isSome_mem ( "<img".toList) t '<' (by decide) (by rw [hd]; simp)

theorem nestedImgOpen?_mem (t : List Char) (h : (nestedImgOpen? t).isSome) :
    '<' ∈ t := by
  unfold nestedImgOpen? at h
  rcases hd : imgOpen? ( "src=\"&lt;img".toList) t with _ | s1
  · rw [hd] at h
    simp at h
  · exact imgOpen?_mem _ t (by rw [hd]; simp)

theorem tryN1_mem (t : List Char) (h : (tryN1 t).isSome) : '<' ∈ t := by
  unfold tryN1 at h
  rcases hd : imgOpen? ( "src=\"<img".toList) t with _ | s1 <;> rw [hd] at h
  · simp at h
  · exact imgOpen?_mem _ t (by rw [hd]; simp)

theorem tryN2_mem (t : List Char) (h : (tryN2 t).isSome) : '<' ∈ t := by
  unfold tryN2 at h
  rcases hd : imgOpen? ( "src=\"http".toList) t with _ | s1 <;> rw [hd] at h
  · simp at h
  · exact imgOpen?_mem _ t (by rw [hd]; simp)

theorem tryN3_mem (t : List Char) (h : (tryN3 t).isSome) : '<' ∈ t := by
  unfold tryN3 at h
  rcases hd : imgOpen? ( "src=\"&lt;img".toList) t with _ | s1 <;> rw [hd] at h
  · simp at h
  · exact imgOpen?_mem _ t (by rw [hd]; simp)

theorem tryN4_mem (t : List Char) (h : (tryN4 t).isSome) : '&' ∈ t := by
  unfold tryN4 at h
  rcases hd : dropLit? ( "&lt;img".toList) t with _ | s1 <;> rw [hd] at h
  · simp at h
  · exact dropLit?_isSome_mem ( "&lt;img".toList) t '&' (by decide) (by rw [hd]; simp)

theorem tryN5_mem (t : List Char) (h : (tryN5 t).isSome) : '<' ∈ t := by
  unfold tryN5 at h
  rcases hd : nestedImgOpen? t with _ | s1 <;> rw [hd] at h
  · simp at h
  · exact nestedImgOpen?_mem t (by rw [hd]; simp)

theorem tryN6_mem (t : List Char) (h : (tryN6 t).isSome) : '&' ∈ t := by
  unfold tryN6 at h
  rcases hd : dropLit? ( "&lt;img".toList) t with _ | s1 <;> rw [hd] at h
  · simp at h
  · exact dropLit?_isSome_mem ( "&lt;img".toList) t '&' (by decide) (by rw [hd]; simp)

theorem tryN7_mem (t : List Char) (h : (tryN7 t).isSome) : '<' ∈ t := by
  unfold tryN7 at h
  rcases hd : nestedImgOpen? t with _ | s1 <;> rw [hd] at h
  · simp at h
  · exact nestedImgOpen?_mem t (by rw [hd]; simp)

theorem tryN8_mem (t : List Char) (h : (tryN8 t).isSome) : '<' ∈ t := by
  unfold tryN8 at h
  rcases hd : nestedImgOpen? t with _ | s1 <;> rw [hd] at h
  · simp at h
  · exact nestedImgOpen?_mem t (by rw [hd]; simp)

theorem tryN9_mem (t : List Char) (h : (tryN9 t).isSome) : '<' ∈ t := by
  unfold tryN9 at h
  rcases hd : nestedImgOpen? t with _ | s1 <;> rw [hd] at h
  · simp at h
  · exact nestedImgOpen?_mem t (by rw [hd]; simp)

theorem tryN10_mem (t : List Char) (h : (tryN10 t).isSome) : '<' ∈ t := by
  unfold tryN10 at h
  rcases hd : nestedImgOpen? t with _ | s1 <;> rw [hd] at h
  · simp at h
  · exact nestedImgOpen?_mem t (by rw [hd]; simp)

theorem tryN11_mem (t : List Char) (h : (tryN11 t).isSome) : '<' ∈ t := by
  unfold tryN11 at h
  rcases hd : nestedImgOpen? t with _ | s1 <;> rw [hd] at h
  · simp at h
  · exact nestedImgOpen?_mem t (by rw [hd]; simp)

theorem tryClean1_mem (t : List Char) (h : (tryClean1 t).isSome) : '<' ∈ t := by
  unfold tryClean1 at h
  rcases hd : imgOpen? ( "src=\"&lt;img".toList) t with _ | s1 <;> rw [hd] at h
  · simp at h
  · exact imgOpen?_mem _ t (by rw [hd]; simp)

theorem tryClean2_mem (t : List Char) (h : (tryClean2 t).isSome) : '&' ∈ t := by
  unfold tryClean2 at h
  rcases hd : dropLit? ( "&lt;img".toList) t with _ | s1 <;> rw [hd] at h
  · simp at h
  · exact dropLit?_isSome_mem ( "&lt;img".toList) t '&' (by decide) (by rw [hd]; simp)

theorem tryPat1_mem (t : List Char) (h : (tryPat1 t).isSome) : '"' ∈ t := by
  unfold tryPat1 at h
  rcases hd : dropLit? litSrcPh2 t with _ | s1 <;> rw [hd] at h
  · simp at h
  · exact dropLit?_isSome_mem litSrcPh2 t '"' (by decide) (by rw [hd]; simp)

theorem tryPat3_mem (t : List Char) (h : (tryPat3 t).isSome) : '"' ∈ t := by
  unfold tryPat3 at h
  rcases hd : dropLit? litSrcPh1 t with _ | s1 <;> rw [hd] at h
  · simp at h
  · exact dropLit?_isSome_mem litSrcPh1 t '"' (by decide) (by rw [hd]; simp)

theorem tryPat4_mem (t : List Char) (h : (tryPat4 t).isSome) : '"' ∈ t := by
  unfold tryPat4 at h
  rcases hd : dropLit? ( "src=\"image:".toList) t with _ | s1 <;> rw [hd] at h
  · simp at h
  · exact dropLit?_isSome_mem ( "src=\"image:".toList) t '"' (by decide) (by rw [hd]; simp)

theorem tryRem1_mem (t : List Char) (h : (tryRem1 t).isSome) : '{' ∈ t := by
  unfold tryRem1 at h
  rcases hd : dropLit? litPh1 t with _ | s1 <;> rw [hd] at h
  · simp at h
  · exact dropLit?_isSome_mem litPh1 t '{' (by decide) (by rw [hd]; simp)

theorem tryRem2_mem (t : List Char) (h : (tryRem2 t).isSome) : '{' ∈ t := by
  unfold tryRem2 at h
  rcases hd : dropLit? litPh2 t with _ | s1 <;> rw [hd] at h
  · simp at h
  · exact dropLit?_isSome_mem litPh2 t '{' (by decide) (by rw [hd]; simp)

/-- A scan whose matcher demands a character that does not occur leaves the
string unchanged. -/
theorem reSubGo_id_of_char
    (try_ : List Char → Option (List Char × List Char)) (ch : Char)
    (htry : ∀ t, (try_ t).isSome → ch ∈ t) :
    ∀ (fuel : Nat) (s : List Char), ch ∉ s → reSubGo try_ fuel s = s := by
  intro fuel
  induction fuel with
  | zero => intro s _; rfl
  | succ f ih =>
    intro s hs
    cases s with
    | nil => rfl
    | cons c cs =>
      rcases ht : try_ (c :: cs) with _ | pr
      · simp only [reSubGo, ht]
        rw [ih cs (fun hmem => hs (by simp [hmem]))]
      · exact absurd (htry (c :: cs) (by rw [ht]; simp)) hs

theorem reSub_id_of_char
    (try_ : List Char → Option (List Char × List Char)) (ch : Char)
    (htry : ∀ t, (try_ t).isSome → ch ∈ t) (s : List Char) (hs : ch ∉ s) :
    reSub try_ s = s :=
  reSubGo_id_of_char try_ ch htry s.length s hs

theorem hasMatch_false_of_char
    (try_ : List Char → Option (List Char × List Char)) (ch : Char)
    (htry : ∀ t, (try_ t).isSome → ch ∈ t) :
    ∀ s : List Char, ch ∉ s → hasMatch try_ s = false := by
  intro s
  induction s with
  | nil =>
    intro _
    simp only [hasMatch]
    rcases ht : try_ [] with _ | pr
    · rfl
    · exact absurd (htry [] (by rw [ht]; simp)) (by simp)
  | cons c cs ih =>
    intro hs
    simp only [hasMatch, Bool.or_eq_false_iff]
    constructor
    · rcases ht : try_ (c :: cs) with _ | pr
      · rfl
      · exact absurd (htry (c :: cs) (by rw [ht]; simp)) hs
    · exact ih (fun hmem => hs (by simp [hmem]))

theorem hasMatch_of_head
    (try_ : List Char → Option (List Char × List Char)) (c : Char)
    (cs : List Char) (h : (try_ (c :: cs)).isSome) :
    hasMatch try_ (c :: cs) = true := by
  simp only [hasMatch, h, Bool.true_or]

/-- The normalizer leaves any string without `<` and `&` unchanged. -/
theorem normalizeImgTags_id (s : List Char) (hlt : '<' ∉ s) (hamp : '&' ∉ s) :
    normalizeImgTags s = s := by
  unfold normalizeImgTags
  rw [reSub_id_of_char tryN1 '<' tryN1_mem s hlt,
    reSub_id_of_char tryN2 '<' tryN2_mem s hlt,
    reSub_id_of_char tryN3 '<' tryN3_mem s hlt,
    reSub_id_of_char tryN4 '&' tryN4_mem s hamp,
    reSub_id_of_char tryN5 '<' tryN5_mem s hlt,
    reSub_id_of_char tryN6 '&' tryN6_mem s hamp,
    reSub_id_of_char tryN7 '<' tryN7_mem s hlt,
    reSub_id_of_char tryN8 '<' tryN8_mem s hlt,
    reSub_id_of_char tryN9 '<' tryN9_mem s hlt,
    reSub_id_of_char tryN10 '<' tryN10_mem s hlt,
    reSub_id_of_char tryN11 '<' tryN11_mem s hlt]

/-- Characters of a canonical "short hyphenated descriptor" label. -/
def goodLabelChar (c : Char) : Bool :=
  c.isAlphanum || c = '-'

/-- A canonical label: nonempty, alphanumeric/hyphen characters only. -/
def goodLabel (L : List Char) : Prop :=
  L ≠ [] ∧ ∀ c ∈ L, goodLabelChar c = true

/-- An image source that cannot retrigger any rewrite pass: it contains no
tag opener, no entity ampersand and no brace (data URIs and plain URLs
qualify). -/
def cleanSrc (S : List Char) : Prop :=
  ∀ c ∈ S, c ≠ '<' ∧ c ≠ '&' ∧ c ≠ '{'

def spaces (n : Nat) : List Char :=
  List.replicate n ' '

/-- A document consisting of a single double-brace placeholder whose label is
padded by `mPad` spaces on the left and `nPad` on the right:
`\x7b\x7bimage:<spaces>L<spaces>\x7d\x7d`.  The canonical spelling
`\x7b\x7bimage: L\x7d\x7d` is `phDoc 1 0 L`. -/
def phDoc (mPad nPad : Nat) (L : List Char) : List Char :=
  litPh2 ++ (spaces mPad ++ (L ++ (spaces nPad ++ [ '}', '}' ])))

theorem phDoc_mem (mPad nPad : Nat) (L : List Char) (c : Char)
    (hc : c ∈ phDoc mPad nPad L) :
    c ∈ litPh2 ∨ c = ' ' ∨ c ∈ L ∨ c = '}' := by
  simp only [phDoc, spaces, List.mem_append, List.mem_replicate,
    List.mem_cons, List.mem_singleton, List.not_mem_nil] at hc
  tauto

theorem goodLabelChar_ne (c b : Char) (h : goodLabelChar c = true)
    (hb : goodLabelChar b = false) : c ≠ b := by
  intro he
  rw [he, hb] at h
  simp at h

theorem goodLabelChar_not_space (c : Char) (h : goodLabelChar c = true) :
    pyIsSpace c = false := by
  rcases hs : pyIsSpace c
  · rfl
  · exfalso
    simp only [pyIsSpace, Bool.or_eq_true, decide_eq_true_eq] at hs
    rcases hs with ((((hs | hs) | hs) | hs) | hs) | hs <;> subst hs <;>
      exact absurd h (by decide)

theorem goodLabelChar_excludes (c : Char) (h : goodLabelChar c = true) :
    c ≠ '<' ∧ c ≠ '&' ∧ c ≠ '"' ∧ c ≠ '{' ∧ c ≠ '}' ∧ c ≠ '\n' ∧
      pyIsSpace c = false :=
  ⟨goodLabelChar_ne c '<' h (by decide), goodLabelChar_ne c '&' h (by decide),
   goodLabelChar_ne c '"' h (by decide), goodLabelChar_ne c '{' h (by decide),
   goodLabelChar_ne c '}' h (by decide), goodLabelChar_ne c '\n' h (by decide),
   goodLabelChar_not_space c h⟩

theorem phDoc_not_mem (mPad nPad : Nat) (L : List Char)
    (hL : ∀ c ∈ L, goodLabelChar c = true) (ch : Char)
    (h1 : ch ∉ litPh2) (h2 : ch ≠ ' ') (h3 : goodLabelChar ch = false)
    (h4 : ch ≠ '}') : ch ∉ phDoc mPad nPad L := by
  intro hc
  rcases phDoc_mem mPad nPad L ch hc with h | h | h | h
  · exact h1 h
  · exact h2 h
  · rw [hL ch h] at h3
    simp at h3
  · exact h4 h

theorem dropWhile_spaces_append (n : Nat) (x : List Char) :
    (spaces n ++ x).dropWhile pyIsSpace = x.dropWhile pyIsSpace := by
  induction n with
  | zero => rfl
  | succ k ih =>
    show (' ' :: (spaces k ++ x)).dropWhile pyIsSpace = _
    rw [List.dropWhile_cons_of_pos (by decide)]
    exact ih

theorem dropWhile_cons_neg (c : Char) (l : List Char) (h : pyIsSpace c = false) :
    (c :: l).dropWhile pyIsSpace = c :: l := by
  simp [List.dropWhile, h]

theorem dropLit?_cons_ne (pc : Char) (p : List Char) (d : Char) (s : List Char)
    (h : ¬ pc = d) : dropLit? (pc :: p) (d :: s) = none := by
  simp [dropLit?, h]

theorem pyStrip_goodLabel (L : List Char)
    (hL : ∀ c ∈ L, goodLabelChar c = true) : pyStrip L = L := by
  have hno : ∀ c ∈ L, pyIsSpace c = false := fun c hc =>
    goodLabelChar_not_space c (hL c hc)
  have h1 : L.dropWhile pyIsSpace = L := by
    cases L with
    | nil => rfl
    | cons c t => exact dropWhile_cons_neg c t (hno c (by simp))
  have h2 : L.reverse.dropWhile pyIsSpace = L.reverse := by
    rcases hr : L.reverse with _ | ⟨c, t⟩
    · rfl
    · have hcL : c ∈ L := by
        have : c ∈ L.reverse := by rw [hr]; simp
        simpa using this
      exact dropWhile_cons_neg c t (hno c hcL)
  unfold pyStrip
  rw [h1, h2, List.reverse_reverse]

theorem lazyWsClose_run (L : List Char)
    (hL : ∀ c ∈ L, goodLabelChar c = true) (nPad : Nat) :
    ∀ (fuel : Nat), L.length + 1 ≤ fuel → ∀ (acc : List Char),
    lazyWsClose ( [ '}', '}' ]) fuel acc
        (L ++ (spaces nPad ++ [ '}', '}' ])) =
      some (acc.reverse ++ L, []) := by
  induction L with
  | nil =>
    intro fuel hf acc
    cases fuel with
    | zero => omega
    | succ f =>
      show lazyWsClose ( [ '}', '}' ]) (f + 1) acc
        (spaces nPad ++ [ '}', '}' ]) = some (acc.reverse ++ [], [])
      simp only [lazyWsClose]
      rw [dropWhile_spaces_append nPad [ '}', '}' ],
        dropWhile_cons_neg '}' [ '}' ] (by decide)]
      simp [dropLit?]
  | cons c L' ih =>
    intro fuel hf acc
    cases fuel with
    | zero =>
      simp only [List.length_cons] at hf
      omega
    | succ f =>
      obtain ⟨_, _, _, _, hbr, hnl, hws⟩ :=
        goodLabelChar_excludes c (hL c (by simp))
      show lazyWsClose ( [ '}', '}' ]) (f + 1) acc
        (c :: (L' ++ (spaces nPad ++ [ '}', '}' ]))) = _
      simp only [lazyWsClose]
      rw [dropWhile_cons_neg c _ hws,
        dropLit?_cons_ne '}' [ '}' ] c _ (fun he => hbr he.symm)]
      rw [if_neg hnl]
      show lazyWsClose ( [ '}', '}' ]) f (c :: acc)
        (L' ++ (spaces nPad ++ [ '}', '}' ])) = some (acc.reverse ++ c :: L', [])
      rw [ih (fun d hd => hL d (by simp [hd])) f
        (by simp only [List.length_cons] at hf; omega) (c :: acc)]
      simp

theorem tryPat5_phDoc (mPad nPad : Nat) (L : List Char) (hL : goodLabel L) :
    tryPat5 (phDoc mPad nPad L) = some (L, []) := by
  obtain ⟨hne, hchars⟩ := hL
  obtain ⟨c, L', rfl⟩ : ∃ c L', L = c :: L' := by
    cases L with
    | nil => exact absurd rfl hne
    | cons c L' => exact ⟨c, L', rfl⟩
  unfold tryPat5 phDoc
  rw [dropLit?_append]
  show lazyWsClose ( [ '}', '}' ])
      (spaces mPad ++ (c :: L' ++ (spaces nPad ++ [ '}', '}' ]))).length []
      ((spaces mPad ++ (c :: L' ++ (spaces nPad ++ [ '}', '}' ]))).dropWhile
        pyIsSpace) = some (c :: L', [])
  rw [dropWhile_spaces_append]
  simp only [List.cons_append]
  rw [show (c :: (L' ++ (spaces nPad ++ [ '}', '}' ]))).dropWhile pyIsSpace =
      c :: (L' ++ (spaces nPad ++ [ '}', '}' ])) from
    dropWhile_cons_neg c _ (goodLabelChar_not_space c (hchars c (by simp)))]
  have hlen : (c :: L').length + 1 ≤
      (spaces mPad ++ c :: (L' ++ (spaces nPad ++ [ '}', '}' ]))).length := by
    simp [spaces, List.length_append]
    omega
  have hrun := lazyWsClose_run (c :: L') hchars nPad
    ((spaces mPad ++ c :: (L' ++ (spaces nPad ++ [ '}', '}' ]))).length)
    hlen []
  simp only [List.cons_append] at hrun
  rw [hrun]
  simp

theorem reSubRGo_nil2 (net : Net) (hint : List Char)
    (try_ : List Char → Option (List Char × List Char)) (fuel : Nat)
    (m : UploadedImages) : reSubRGo net hint try_ fuel [] m = ([], m) := by
  cases fuel <;> rfl

theorem reSubRGo_single (net : Net) (hint : List Char)
    (try_ : List Char → Option (List Char × List Char)) (c : Char)
    (cs : List Char) (L' : List Char) (m : UploadedImages)
    (h : try_ (c :: cs) = some (L', [])) :
    reSubRGo net hint try_ (c :: cs).length (c :: cs) m =
      ((repl net hint m L').1, (repl net hint m L').2) := by
  show reSubRGo net hint try_ (cs.length + 1) (c :: cs) m = _
  simp only [reSubRGo, h, reSubRGo_nil2]
  simp

theorem mainPassGo_cons_false (net : Net) (hint : List Char)
    (p : List Char → Option (List Char × List Char))
    (ps : List (List Char → Option (List Char × List Char)))
    (s : List Char) (m : UploadedImages) (h : hasMatch p s = false) :
    mainPassGo net hint (p :: ps) s m = mainPassGo net hint ps s m := by
  simp [mainPassGo, h]

theorem mainPassGo_cons_true (net : Net) (hint : List Char)
    (p : List Char → Option (List Char × List Char))
    (ps : List (List Char → Option (List Char × List Char)))
    (s : List Char) (m : UploadedImages) (h : hasMatch p s = true) :
    mainPassGo net hint (p :: ps) s m = reSubRGo net hint p s.length s m := by
  simp [mainPassGo, h]

theorem fetch_unsplash_fail (net : Net) (huns : ∀ q, net.unsplashApi q = none)
    (q : List Char) : fetch_unsplash net q = [] := by
  rcases hk : net.unsplashKey
  · simp [fetch_unsplash, hk]
  · simp [fetch_unsplash, hk, huns]

theorem generate_sd_fail (net : Net) (hsd : ∀ p, net.sdApi p = ApiResult.failure)
    (huns : ∀ q, net.unsplashApi q = none) (p : List Char) :
    generate_stable_diffusion_image net p = [] := by
  rcases ha : net.hfAvailable
  · simp [generate_stable_diffusion_image, ha, fetch_unsplash_fail net huns]
  · simp [generate_stable_diffusion_image, ha, hsd,
      fetch_unsplash_fail net huns]

theorem generate_flux_fail (net : Net)
    (hflux : ∀ p, net.fluxApi p = ApiResult.failure)
    (hsd : ∀ p, net.sdApi p = ApiResult.failure)
    (huns : ∀ q, net.unsplashApi q = none) (p : List Char) :
    generate_flux_image net p = [] := by
  rcases ha : net.hfAvailable
  · simp [generate_flux_image, ha, generate_sd_fail net hsd huns]
  · rcases ht : net.hfToken
    · simp [generate_flux_image, ha, ht, generate_sd_fail net hsd huns]
    · simp [generate_flux_image, ha, ht, hflux, generate_sd_fail net hsd huns]

/-- C5: when no network backend is reachable and no upload exists for the
label, the resolver returns the `src` attribute of the picsum placeholder URL
seeded by the (stripped) label — a fixed, non-empty URL embedding the label
as its seed component, hence identical across repeated resolutions. -/
theorem C5_fallback_determinism (net : Net) (hint : List Char)
    (m : UploadedImages) (L : List Char) (hfail : allCallsFail net)
    (hup : lookupImg m (pyStrip L) = none) :
    ∃ dims, (dims = ( "/400/400".toList) ∨ dims = ( "/800/500".toList)) ∧
      (repl net hint m L).1 = ( "src=\"".toList) ++
        (( "https://picsum.photos/seed/".toList) ++ pyStrip L ++ dims) ++
        litQuote ∧
      ( "https://picsum.photos/seed/".toList) ++ pyStrip L ++ dims ≠ [] := by
  obtain ⟨hflux, hsd, huns⟩ := hfail
  have hf := generate_flux_fail net hflux hsd huns
  have hs := generate_sd_fail net hsd huns
  simp only [repl]
  rw [hup]
  cases hp : (containsSub ( "profile".toList) (pyLower (pyStrip L)) ||
      containsSub ( "avatar".toList) (pyLower (pyStrip L)) ||
      containsSub ( "photo".toList) (pyLower (pyStrip L)))
  · refine ⟨( "/800/500".toList), Or.inr rfl, ?_, by simp⟩
    simp [hf, pyOr]
  · refine ⟨( "/400/400".toList), Or.inl rfl, ?_, by simp⟩
    simp [hf, hs, pyOr]

/-- Witness for C5 at the concrete failing network, label `"farm-produce"`
and empty map. -/
theorem C5_fallback_determinism_witness :
    allCallsFail deadNet ∧
    lookupImg [] (pyStrip ( "farm-produce".toList)) = none ∧
    ∃ dims, (dims = ( "/400/400".toList) ∨ dims = ( "/800/500".toList)) ∧
      (repl deadNet [] [] ( "farm-produce".toList)).1 = ( "src=\"".toList) ++
        (( "https://picsum.photos/seed/".toList) ++
          pyStrip ( "farm-produce".toList) ++ dims) ++ litQuote ∧
      ( "https://picsum.photos/seed/".toList) ++
        pyStrip ( "farm-produce".toList) ++ dims ≠ [] :=
  ⟨⟨fun _ => rfl, fun _ => rfl, fun _ => rfl⟩, rfl,
    C5_fallback_determinism deadNet [] [] ( "farm-produce".toList)
      ⟨fun _ => rfl, fun _ => rfl, fun _ => rfl⟩ rfl⟩

/-! ## C3, C10 and C8: the resolver's uploaded-image precedence, label
whitespace-insensitivity, and the nested malformed img tag scenario -/

/-- The `src="S"` attribute text the resolver returns (app.py 919). -/
def srcAttr (S : List Char) : List Char :=
  ( "src=\"".toList) ++ S ++ litQuote

/-- When the stripped label has an uploaded entry, `repl` returns its source
verbatim (app.py 917-919): no generation or stock-photo call is examined and
the map is returned untouched. -/
theorem repl_uploaded (net : Net) (hint : List Char) (m : UploadedImages)
    (L S : List Char) (hup : lookupImg m (pyStrip L) = some S) :
    repl net hint m L = (srcAttr S, m) := by
  simp only [repl]
  rw [hup]
  rfl

theorem srcAttr_not_mem (S : List Char) (hS : cleanSrc S) (ch : Char)
    (hch : ch = '<' ∨ ch = '&' ∨ ch = '{') : ch ∉ srcAttr S := by
  intro hmem
  simp only [srcAttr, List.mem_append] at hmem
  rcases hmem with (h | h) | h
  · rcases hch with rfl | rfl | rfl <;> exact absurd h (by decide)
  · obtain ⟨h1, h2, h3⟩ := hS ch h
    rcases hch with rfl | rfl | rfl
    · exact h1 rfl
    · exact h2 rfl
    · exact h3 rfl
  · rcases hch with rfl | rfl | rfl <;> exact absurd h (by decide)

/-- The final check fires on no brace-free text. -/
theorem finalPlaceholderPass_id (t : List Char) (hbr : '{' ∉ t) :
    finalPlaceholderPass t = t := by
  have hrem : remainingPlaceholders t = false := by
    unfold remainingPlaceholders
    rw [hasMatch_false_of_char tryRem2 '{' tryRem2_mem t hbr,
      hasMatch_false_of_char tryRem1 '{' tryRem1_mem t hbr]
    rfl
  unfold finalPlaceholderPass
  rw [hrem]
  simp

theorem hasMatch_tryPat5_phDoc (mPad nPad : Nat) (L : List Char)
    (hL : goodLabel L) : hasMatch tryPat5 (phDoc mPad nPad L) = true := by
  have hs : (tryPat5 (phDoc mPad nPad L)).isSome = true := by
    rw [tryPat5_phDoc mPad nPad L hL]
    rfl
  exact hasMatch_of_head tryPat5 '{'
    (('{' :: ( "image:".toList)) ++
      (spaces mPad ++ (L ++ (spaces nPad ++ [ '}', '}' ])))) hs

/-- Full-pipeline computation of `fill_images` on a single-placeholder
document with an uploaded entry: the normalizer is the identity (no `<` or
`&` present), the quoted pattern variants find no `"`, the standalone
double-brace variant is the first match, the resolver returns the uploaded
source, and the cleanups and final check leave the attribute alone. -/
theorem fill_images_phDoc (net : Net) (prompt hint : List Char)
    (m : UploadedImages) (mPad nPad : Nat) (L S : List Char)
    (hL : goodLabel L) (hS : cleanSrc S) (hup : lookupImg m L = some S) :
    fill_images net (phDoc mPad nPad L) prompt (some m) hint = srcAttr S := by
  have hchars := hL.2
  have hlt : '<' ∉ phDoc mPad nPad L :=
    phDoc_not_mem mPad nPad L hchars '<' (by decide) (by decide) (by decide)
      (by decide)
  have hamp : '&' ∉ phDoc mPad nPad L :=
    phDoc_not_mem mPad nPad L hchars '&' (by decide) (by decide) (by decide)
      (by decide)
  have hq : '"' ∉ phDoc mPad nPad L :=
    phDoc_not_mem mPad nPad L hchars '"' (by decide) (by decide) (by decide)
      (by decide)
  have hupL : lookupImg m (pyStrip L) = some S := by
    rw [pyStrip_goodLabel L hchars]
    exact hup
  have hmain : mainPassGo net hint replacementPatterns
      (normalizeImgTags (phDoc mPad nPad L)) (getUploaded (some m)) =
      (srcAttr S, m) := by
    rw [normalizeImgTags_id _ hlt hamp]
    show mainPassGo net hint
      [tryPat1, tryPat1, tryPat3, tryPat4, tryPat5, tryPat5, tryPat7, tryPat8]
      (phDoc mPad nPad L) m = _
    rw [mainPassGo_cons_false net hint tryPat1 _ _ m
        (hasMatch_false_of_char tryPat1 '"' tryPat1_mem _ hq),
      mainPassGo_cons_false net hint tryPat1 _ _ m
        (hasMatch_false_of_char tryPat1 '"' tryPat1_mem _ hq),
      mainPassGo_cons_false net hint tryPat3 _ _ m
        (hasMatch_false_of_char tryPat3 '"' tryPat3_mem _ hq),
      mainPassGo_cons_false net hint tryPat4 _ _ m
        (hasMatch_false_of_char tryPat4 '"' tryPat4_mem _ hq),
      mainPassGo_cons_true net hint tryPat5 _ _ m
        (hasMatch_tryPat5_phDoc mPad nPad L hL)]
    have h5 : tryPat5 ('{' :: (('{' :: ( "image:".toList)) ++
        (spaces mPad ++ (L ++ (spaces nPad ++ [ '}', '}' ]))))) =
        some (L, []) := tryPat5_phDoc mPad nPad L hL
    rw [show phDoc mPad nPad L = '{' :: (('{' :: ( "image:".toList)) ++
        (spaces mPad ++ (L ++ (spaces nPad ++ [ '}', '}' ])))) from rfl]
    rw [reSubRGo_single net hint tryPat5 '{' _ L m h5]
    rw [repl_uploaded net hint m L S hupL]
  rw [fill_images_as_final]
  unfold fill_imagesHtml
  rw [hmain]
  show finalPlaceholderPass (reSub tryClean2 (reSub tryClean1 (srcAttr S))) =
    srcAttr S
  rw [reSub_id_of_char tryClean1 '<' tryClean1_mem _
      (srcAttr_not_mem S hS '<' (Or.inl rfl)),
    reSub_id_of_char tryClean2 '&' tryClean2_mem _
      (srcAttr_not_mem S hS '&' (Or.inr (Or.inl rfl))),
    finalPlaceholderPass_id _ (srcAttr_not_mem S hS '{' (Or.inr (Or.inr rfl)))]

/-- C3 counterexample: the label "L" is uploaded with source "UP" and the
document contains the placeholder `\x7bimage: L\x7d` for it, yet the quoted
double-brace variant (for the unrelated label "ban") is the first pattern to
match, the first-match-only loop never runs the single-brace variant, the
placeholder for "L" falls to the aggressive pass, and its `src` resolves to
the seed-less picsum fallback: "UP" appears nowhere in the output. -/
theorem C3_uploaded_precedence_cex :
    lookupImg [( ( "L".toList), ( "UP".toList))] ( "L".toList) =
      some ( "UP".toList) ∧
    containsSub ( "\x7bimage: L\x7d".toList)
      ( "pre src=\"\x7b\x7bimage: ban\x7d\x7d\" mid \x7bimage: L\x7d post".toList) =
      true ∧
    fill_images deadNet
        ( "pre src=\"\x7b\x7bimage: ban\x7d\x7d\" mid \x7bimage: L\x7d post".toList)
        [] (some [( ( "L".toList), ( "UP".toList))]) [] =
      ( "pre src=\"https://picsum.photos/seed/ban/800/500\" mid <img src=\"https://picsum.photos/seed//800/500\" alt=\"\">L\x7d post".toList) ∧
    containsSub ( "UP".toList)
      (fill_images deadNet
        ( "pre src=\"\x7b\x7bimage: ban\x7d\x7d\" mid \x7bimage: L\x7d post".toList)
        [] (some [( ( "L".toList), ( "UP".toList))]) []) = false := by
  decide

/-- C3 (amended): uploaded-image precedence holds at the resolver and on
single-placeholder documents.  (1) Whenever the resolver `repl` runs on a
captured label whose stripped form has an entry `S` in the uploaded-image
map, it returns `src="S"` verbatim with the map untouched, for every network
state and style hint — no generation or stock-photo fallback is consulted.
(2) For a document that is exactly one double-brace placeholder (any
interior padding) whose label is uploaded with a clean source `S`,
`fill_images` returns exactly `src="S"`, for every network state, context
prompt and style hint. -/
theorem C3_uploaded_precedence_amended :
    (∀ (net : Net) (hint : List Char) (m : UploadedImages) (L S : List Char),
      lookupImg m (pyStrip L) = some S →
      repl net hint m L = (srcAttr S, m)) ∧
    (∀ (net : Net) (prompt hint : List Char) (m : UploadedImages)
        (mPad nPad : Nat) (L S : List Char),
      goodLabel L → cleanSrc S → lookupImg m L = some S →
      fill_images net (phDoc mPad nPad L) prompt (some m) hint = srcAttr S) :=
  ⟨fun net hint m L S h => repl_uploaded net hint m L S h,
   fun net prompt hint m mPad nPad L S hL hS hup =>
     fill_images_phDoc net prompt hint m mPad nPad L S hL hS hup⟩

/-- Witness for the amended C3 at the dead network, label "L", uploaded
source "UP" and padding (3, 2). -/
theorem C3_uploaded_precedence_amended_witness :
    repl deadNet ( "hint".toList) [( ( "L".toList), ( "UP".toList))]
      ( " L ".toList) = (srcAttr ( "UP".toList),
        [( ( "L".toList), ( "UP".toList))]) ∧
    fill_images deadNet (phDoc 3 2 ( "L".toList)) ( "prompt".toList)
      (some [( ( "L".toList), ( "UP".toList))]) ( "hint".toList) =
      srcAttr ( "UP".toList) :=
  ⟨C3_uploaded_precedence_amended.1 deadNet ( "hint".toList)
      [( ( "L".toList), ( "UP".toList))] ( " L ".toList) ( "UP".toList)
      (by decide),
   C3_uploaded_precedence_amended.2 deadNet ( "prompt".toList) ( "hint".toList)
      [( ( "L".toList), ( "UP".toList))] 3 2 ( "L".toList) ( "UP".toList)
      (by constructor <;> decide) (by unfold cleanSrc; decide) (by decide)⟩

/-- C10 counterexample: two documents identical except for interior padding
of a double-brace placeholder whose label "L" is uploaded produce different
outputs: the quoted `src="image:..."` variant matches first and diverts the
single replacement pass, the padded placeholder falls to the aggressive pass
whose capture group is always empty, and the interior padding survives
verbatim into the output. -/
theorem C10_whitespace_insensitivity_cex :
    fill_images deadNet ( "src=\"image: a\" \x7b\x7bimage:  L  \x7d\x7d".toList)
        [] (some [( ( "L".toList), ( "UP".toList))]) [] =
      ( "src=\"https://picsum.photos/seed/a/800/500\" <img src=\"https://picsum.photos/seed//800/500\" alt=\"\">L  \x7d\x7d".toList) ∧
    fill_images deadNet ( "src=\"image: a\" \x7b\x7bimage: L\x7d\x7d".toList)
        [] (some [( ( "L".toList), ( "UP".toList))]) [] =
      ( "src=\"https://picsum.photos/seed/a/800/500\" <img src=\"https://picsum.photos/seed//800/500\" alt=\"\">L\x7d\x7d".toList) ∧
    fill_images deadNet ( "src=\"image: a\" \x7b\x7bimage:  L  \x7d\x7d".toList)
        [] (some [( ( "L".toList), ( "UP".toList))]) [] ≠
      fill_images deadNet ( "src=\"image: a\" \x7b\x7bimage: L\x7d\x7d".toList)
        [] (some [( ( "L".toList), ( "UP".toList))]) [] := by
  decide

/-- C10 (amended): padding-insensitivity holds on single-placeholder
documents: a document that is exactly one double-brace placeholder with any
amounts of interior padding around an uploaded label resolves identically to
the canonical spelling `\x7b\x7bimage: L\x7d\x7d`, namely to `src="S"` — the
padded label still matches its entry in the uploaded-image map because the
resolver strips the captured group. -/
theorem C10_whitespace_insensitivity_amended (net : Net)
    (prompt hint : List Char) (m : UploadedImages) (mPad nPad : Nat)
    (L S : List Char) (hL : goodLabel L) (hS : cleanSrc S)
    (hup : lookupImg m L = some S) :
    fill_images net (phDoc mPad nPad L) prompt (some m) hint =
      fill_images net (phDoc 1 0 L) prompt (some m) hint ∧
    fill_images net (phDoc mPad nPad L) prompt (some m) hint = srcAttr S := by
  have h1 := fill_images_phDoc net prompt hint m mPad nPad L S hL hS hup
  have h2 := fill_images_phDoc net prompt hint m 1 0 L S hL hS hup
  exact ⟨h1.trans h2.symm, h1⟩

/-- Witness for the amended C10 at the dead network, label "L", uploaded
source "UP" and padding (4, 3). -/
theorem C10_whitespace_insensitivity_amended_witness :
    fill_images deadNet (phDoc 4 3 ( "L".toList)) []
        (some [( ( "L".toList), ( "UP".toList))]) [] =
      fill_images deadNet (phDoc 1 0 ( "L".toList)) []
        (some [( ( "L".toList), ( "UP".toList))]) [] ∧
    fill_images deadNet (phDoc 4 3 ( "L".toList)) []
        (some [( ( "L".toList), ( "UP".toList))]) [] =
      srcAttr ( "UP".toList) :=
  C10_whitespace_insensitivity_amended deadNet [] []
    [( ( "L".toList), ( "UP".toList))] 4 3 ( "L".toList) ( "UP".toList)
    (by constructor <;> decide) (by unfold cleanSrc; decide) (by decide)

/-- C8: the exactly double-nested malformed tag
`<img src="<img src="https://x/y.png" alt="profile">">` is rewritten by the
normalizer pre-pass to the placeholder `\x7b\x7bimage: profile\x7d\x7d`, and
with no upload for "profile" and every generation backend failing,
`fill_images` resolves it to the deterministic seeded picsum `src="..."`
attribute, whose text contains no embedded `<img` substring. -/
theorem C8_nested_img_tag_normalized :
    normalizeImgTags
      ( "<img src=\"<img src=\"https://x/y.png\" alt=\"profile\">\">".toList) =
      ( "\x7b\x7bimage: profile\x7d\x7d".toList) ∧
    fill_images deadNet
        ( "<img src=\"<img src=\"https://x/y.png\" alt=\"profile\">\">".toList)
        [] none [] =
      ( "src=\"https://picsum.photos/seed/profile/400/400\"".toList) ∧
    containsSub ( "<img".toList)
      (fill_images deadNet
        ( "<img src=\"<img src=\"https://x/y.png\" alt=\"profile\">\">".toList)
        [] none []) = false := by
  decide
